import Mathlib

/-!
Shallow embedding of the natural-language command interpreter of the
`ai-task-assistant` repository (file `src/nlp_processor.py`, class
`NLPProcessor`), together with theorems settling the frozen claims about it.

Conventions of the embedding:
* Python strings are modelled as `List Char` internally; `String` at the API
  boundary.  `str.lower()` is modelled character-wise on ASCII (`Char.toLower`),
  which agrees with CPython on all inputs considered here.
* Each regular expression of the source is modelled by a dedicated matching
  function whose doc comment quotes the original pattern.  `re.search`
  semantics (leftmost position, then the pattern's own greedy/backtracking
  order) are reproduced; where a greedy sub-pattern is followed by a
  character class disjoint from it, greedy matching without backtracking is
  used, which is equivalent.
* `datetime` dates are a `year/month/day` record plus the cached result of
  `weekday()`; `timedelta` arithmetic steps one day at a time, and
  `datetime.replace` faults (Python `ValueError`) when the unchanged day does
  not exist in the target month, exactly like CPython.
* Fallible code returns `Except PyErr`; the only fallible operation reachable
  from `parse_command` is the `replace(year=…, month=…)` call of the
  "in N months" rule.
-/

namespace TaskNLP

/-! ## Characters, whitespace, words -/

/-- Python `str.strip()` / `\s` whitespace characters. -/
def isPySpace (c : Char) : Bool :=
  c = ' ' || c = '\t' || c = '\n' || c = '\r' || c = '\x0b' || c = '\x0c'

/-- Regex `\w`: ASCII letters, digits and underscore. -/
def isWordChar (c : Char) : Bool :=
  c.isAlpha || c.isDigit || c = '_'

/-- Regex `\d`. -/
def isDigitChar (c : Char) : Bool := c.isDigit

/-- The two quote characters of the char class `["\']`. -/
def isQuote (c : Char) : Bool := c = '"' || c = '\''

/-- Python `str.lower()`, character-wise (ASCII). -/
def lowerStr (l : List Char) : List Char := l.map Char.toLower

/-- Python `str.strip()`: drop whitespace from both ends. -/
def pyStrip (l : List Char) : List Char :=
  ((l.dropWhile isPySpace).reverse.dropWhile isPySpace).reverse

/-- Helper for `pySplitWs`: left-to-right scan with the (reversed) current
word as accumulator. -/
def pySplitWsAux : List Char → List Char → List (List Char)
  | acc, [] => if acc.isEmpty then [] else [acc.reverse]
  | acc, c :: cs =>
    if isPySpace c then
      if acc.isEmpty then pySplitWsAux [] cs else acc.reverse :: pySplitWsAux [] cs
    else pySplitWsAux (c :: acc) cs

/-- Python `str.split()` (no argument): maximal non-whitespace runs. -/
def pySplitWs (l : List Char) : List (List Char) := pySplitWsAux [] l

/-- Python `str.split(',')`. -/
def pySplitComma (l : List Char) : List (List Char) :=
  match l with
  | [] => [[]]
  | c :: cs =>
    match pySplitComma cs with
    | [] => [[]]
    | w :: ws => if c = ',' then [] :: (w :: ws) else (c :: w) :: ws

/-- Python `needle in haystack` substring test. -/
def subIn (needle : List Char) : List Char → Bool
  | [] => needle.isEmpty
  | c :: cs => needle.isPrefixOf (c :: cs) || subIn needle cs

/-! ## Numerals -/

/-- Decimal digit character of `n % 10`. -/
def digitChar (n : Nat) : Char := Char.ofNat (48 + n % 10)

/-- Digit recursion with explicit fuel (structural, so that the kernel can
evaluate it); `fuel > n` suffices since `n / 10 < n` for `n ≥ 10`. -/
def natDigitsAux : Nat → Nat → List Char
  | 0, _ => []
  | fuel + 1, n =>
    if n < 10 then [digitChar n]
    else natDigitsAux fuel (n / 10) ++ [digitChar (n % 10)]

/-- Decimal digits of `n`, most significant first (Python `str(n)` / `%d`). -/
def natDigits (n : Nat) : List Char := natDigitsAux (n + 1) n

/-- Python `int(s)` on a non-empty digit string. -/
def natOfDigits (l : List Char) : Nat :=
  l.foldl (fun a c => a * 10 + (c.toNat - 48)) 0

/-- `%02d` formatting (also Python `str.zfill(2)` on digit strings). -/
def pad2 (n : Nat) : List Char :=
  if n < 10 then '0' :: natDigits n else natDigits n

/-- `%04d`-style padding used by `strftime('%Y')`. -/
def pad4 (n : Nat) : List Char :=
  let d := natDigits n
  List.replicate (4 - d.length) '0' ++ d

/-! ## Dates (`datetime.date` fragment) -/

/-- Errors raised by the modelled `datetime` operations. -/
inductive PyErr where
  | valueError
  deriving Repr, DecidableEq

/-- A `datetime` value as used by the interpreter: the calendar fields plus
the value of `weekday()` (0 = Monday … 6 = Sunday).  The weekday field is
carried along so that day arithmetic can update it; it is what
`datetime.weekday()` returns for the anchor. -/
structure PyDate where
  year : Nat
  month : Nat
  day : Nat
  weekday : Nat
  deriving Repr, DecidableEq

/-- Gregorian leap year (as in `calendar.isleap`). -/
def isLeap (y : Nat) : Bool :=
  y % 4 = 0 && (y % 100 ≠ 0 || y % 400 = 0)

/-- Days in a month; months outside 1–12 never arise on valid dates and get
the catch-all 31. -/
def daysInMonth (y m : Nat) : Nat :=
  if m = 2 then (if isLeap y then 29 else 28)
  else if m = 4 || m = 6 || m = 9 || m = 11 then 30
  else 31

/-- The calendar fields form a real date. -/
def ValidYMD (y m d : Nat) : Bool :=
  1 ≤ m && m ≤ 12 && 1 ≤ d && d ≤ daysInMonth y m

/-- A `PyDate` whose calendar fields are valid. -/
def ValidDate (d : PyDate) : Bool := ValidYMD d.year d.month d.day

/-- Step one day forward (`+ timedelta(days=1)`), updating the weekday. -/
def nextDay (d : PyDate) : PyDate :=
  let w := (d.weekday + 1) % 7
  if d.day < daysInMonth d.year d.month then
    { d with day := d.day + 1, weekday := w }
  else if d.month < 12 then
    { d with month := d.month + 1, day := 1, weekday := w }
  else
    { year := d.year + 1, month := 1, day := 1, weekday := w }

/-- Step one day backward (`- timedelta(days=1)`). -/
def prevDay (d : PyDate) : PyDate :=
  let w := (d.weekday + 6) % 7
  if 1 < d.day then
    { d with day := d.day - 1, weekday := w }
  else if 1 < d.month then
    { d with month := d.month - 1, day := daysInMonth d.year (d.month - 1), weekday := w }
  else
    { year := d.year - 1, month := 12, day := 31, weekday := w }

/-- `date + timedelta(days=n)`. -/
def addDays (d : PyDate) : Nat → PyDate
  | 0 => d
  | n + 1 => nextDay (addDays d n)

/-- `date - timedelta(days=n)`. -/
def subDays (d : PyDate) : Nat → PyDate
  | 0 => d
  | n + 1 => prevDay (subDays d n)

/-- `date.replace(day=1)` — always succeeds. -/
def withDay1 (d : PyDate) : PyDate := { d with day := 1 }

/-- `date.replace(month=12, day=31)` — always succeeds. -/
def endOfYear (d : PyDate) : PyDate := { d with month := 12, day := 31 }

/-- `date.replace(year=y, month=m)`: keeps the day and raises `ValueError`
when the day does not exist in the target month (CPython behaviour). -/
def replaceYM (d : PyDate) (y m : Nat) : Except PyErr PyDate :=
  if 1 ≤ m ∧ m ≤ 12 ∧ d.day ≤ daysInMonth y m then
    .ok { d with year := y, month := m }
  else
    .error .valueError

/-- The list `YYYY-MM-DD` produced by `strftime('%Y-%m-%d')`. -/
def isoChars (y m d : Nat) : List Char :=
  pad4 y ++ '-' :: (pad2 m ++ '-' :: pad2 d)

/-- `strftime('%Y-%m-%d')`. -/
def fmtDate (d : PyDate) : List Char := isoChars d.year d.month d.day

/-- The spec's notion for claim C4: the string is the ISO rendering of some
valid calendar date. -/
def IsValidISO (s : String) : Prop :=
  ∃ y m d, ValidYMD y m d = true ∧ s.data = isoChars y m d

/-! ## Regex building blocks

Each original regular expression is modelled by a *position matcher*
(`List Char → Option …`) that tries to match at the start of its argument,
combined with a scan that reproduces `re.search`'s leftmost-position rule.
All literal matching is case-insensitive (`re.IGNORECASE` is set on every
`re.search` call of the source, and the patterns are lowercase). -/

/-- Consume the literal word `p` (lowercase), case-insensitively. -/
def eatCI : List Char → List Char → Option (List Char)
  | [], s => some s
  | _ :: _, [] => none
  | p :: ps, c :: cs => if c.toLower = p then eatCI ps cs else none

/-- `\s+` followed by a non-whitespace construct: greedy, no backtracking
needed since the continuation never starts with whitespace. -/
def ws1 : List Char → Option (List Char)
  | [] => none
  | c :: cs => if isPySpace c then some (cs.dropWhile isPySpace) else none

/-- `\b` when the preceding matched character was a word character: the next
character must be absent or a non-word character. -/
def endBoundary : List Char → Bool
  | [] => true
  | c :: _ => ¬ isWordChar c

/-- `(\d+)` immediately followed by whitespace or the end of the pattern:
greedy capture of a maximal digit run. -/
def capDigitsAt (s : List Char) : Option (List Char × List Char) :=
  let r := s.takeWhile isDigitChar
  if r.isEmpty then none else some (r, s.drop r.length)

/-- `(\w+)` at the end of a pattern: greedy capture of a maximal word run. -/
def capWordAt (s : List Char) : Option (List Char × List Char) :=
  let r := s.takeWhile isWordChar
  if r.isEmpty then none else some (r, s.drop r.length)

/-- `(.+)` at the end of a pattern: everything up to the next newline. -/
def capAllAt (s : List Char) : Option (List (List Char)) :=
  let r := s.takeWhile (fun c => c ≠ '\n')
  if r.isEmpty then none else some [r]

/-- `["\']([^"\']+)["\']`: an opening quote (either kind), a non-empty
quote-free capture, a closing quote (either kind).  Returns the capture and
the input after the closing quote. -/
def quotedCapAt : List Char → Option (List Char × List Char)
  | [] => none
  | c :: rest =>
    if isQuote c then
      let g := rest.takeWhile (fun d => ¬ isQuote d)
      if g.isEmpty then none
      else
        match rest.drop g.length with
        | d :: tail => if isQuote d then some (g, tail) else none
        | [] => none
    else none

/-- `w\s+` followed by the continuation `k`. -/
def wordWs (w : String) (k : List Char → Option α) (s : List Char) : Option α := do
  k (← ws1 (← eatCI w.data s))

/-- `(?:w\s+)?` followed by the continuation `k` (greedy: with the word
first, then without). -/
def optWordWs (w : String) (k : List Char → Option α) (s : List Char) : Option α :=
  (do k (← ws1 (← eatCI w.data s))) <|> k s

/-- A final literal word of a pattern (no captures). -/
def endWord (w : String) (s : List Char) : Option (List (List Char)) :=
  (eatCI w.data s).map (fun _ => [])

/-- `re.search` position scan: try the position matcher at every suffix,
leftmost success wins. -/
def scan (f : List Char → Option α) : List Char → Option α
  | [] => f []
  | c :: cs => f (c :: cs) <|> scan f cs

/-- Position scan for a pattern starting with `\b` followed by a word
character: only positions preceded by nothing or a non-word character are
tried. -/
def scanBAux (f : List Char → Option α) : Char → List Char → Option α
  | _, [] => none
  | p, c :: cs => (if ¬ isWordChar p then f (c :: cs) else none) <|> scanBAux f c cs

/-- See `scanBAux`; at position 0 there is no preceding character, so the
boundary holds. -/
def scanB (f : List Char → Option α) (s : List Char) : Option α :=
  f s <|> (match s with | [] => none | c :: cs => scanBAux f c cs)

/-! ## The command pattern library (`NLPProcessor.__init__`)

One position matcher per regex, in the declared order.  Matchers return the
list of captured groups (`match.groups()`). -/

/-- `add\s+(?:a\s+)?(?:new\s+)?task\s+(?:called\s+)?["\']([^"\']+)["\']` -/
def addP1At : List Char → Option (List (List Char)) :=
  wordWs "add" (optWordWs "a" (optWordWs "new" (wordWs "task" (optWordWs "called"
    (fun s => (quotedCapAt s).map (fun g => [g.1]))))))

/-- `create\s+(?:a\s+)?(?:new\s+)?task\s+(?:called\s+)?["\']([^"\']+)["\']` -/
def addP2At : List Char → Option (List (List Char)) :=
  wordWs "create" (optWordWs "a" (optWordWs "new" (wordWs "task" (optWordWs "called"
    (fun s => (quotedCapAt s).map (fun g => [g.1]))))))

/-- `new\s+task\s+(?:called\s+)?["\']([^"\']+)["\']` -/
def addP3At : List Char → Option (List (List Char)) :=
  wordWs "new" (wordWs "task" (optWordWs "called"
    (fun s => (quotedCapAt s).map (fun g => [g.1]))))

/-- `add\s+["\']([^"\']+)["\']\s+to\s+my\s+tasks` -/
def addP4At : List Char → Option (List (List Char)) :=
  wordWs "add" (fun s => do
    let (g, r) ← quotedCapAt s
    let r ← ws1 r
    let r ← ws1 (← eatCI "to".data r)
    let r ← ws1 (← eatCI "my".data r)
    let _ ← eatCI "tasks".data r
    some [g])

/-- `add\s+(?:a\s+)?task\s+(?:about\s+)?(.+)` -/
def addP5At : List Char → Option (List (List Char)) :=
  wordWs "add" (optWordWs "a" (wordWs "task" (optWordWs "about" capAllAt)))

/-- `create\s+(?:a\s+)?task\s+(?:about\s+)?(.+)` -/
def addP6At : List Char → Option (List (List Char)) :=
  wordWs "create" (optWordWs "a" (wordWs "task" (optWordWs "about" capAllAt)))

/-- `search\s+(?:for\s+)?["\']([^"\']+)["\']` -/
def schP1At : List Char → Option (List (List Char)) :=
  wordWs "search" (optWordWs "for" (fun s => (quotedCapAt s).map (fun g => [g.1])))

/-- `find\s+(?:tasks\s+)?(?:about\s+)?["\']([^"\']+)["\']` -/
def schP2At : List Char → Option (List (List Char)) :=
  wordWs "find" (optWordWs "tasks" (optWordWs "about"
    (fun s => (quotedCapAt s).map (fun g => [g.1]))))

/-- `look\s+for\s+(?:tasks\s+)?(?:about\s+)?["\']([^"\']+)["\']` -/
def schP3At : List Char → Option (List (List Char)) :=
  wordWs "look" (wordWs "for" (optWordWs "tasks" (optWordWs "about"
    (fun s => (quotedCapAt s).map (fun g => [g.1])))))

/-- `show\s+me\s+(?:tasks\s+)?(?:about\s+)?["\']([^"\']+)["\']` -/
def schP4At : List Char → Option (List (List Char)) :=
  wordWs "show" (wordWs "me" (optWordWs "tasks" (optWordWs "about"
    (fun s => (quotedCapAt s).map (fun g => [g.1])))))

/-- `search\s+(?:for\s+)?(.+)` -/
def schP5At : List Char → Option (List (List Char)) :=
  wordWs "search" (optWordWs "for" capAllAt)

/-- `find\s+(?:tasks\s+)?(?:about\s+)?(.+)` -/
def schP6At : List Char → Option (List (List Char)) :=
  wordWs "find" (optWordWs "tasks" (optWordWs "about" capAllAt))

/-- `list\s+(?:all\s+)?tasks` -/
def lstP1At : List Char → Option (List (List Char)) :=
  wordWs "list" (optWordWs "all" (endWord "tasks"))

/-- `show\s+(?:all\s+)?tasks` -/
def lstP2At : List Char → Option (List (List Char)) :=
  wordWs "show" (optWordWs "all" (endWord "tasks"))

/-- `display\s+(?:all\s+)?tasks` -/
def lstP3At : List Char → Option (List (List Char)) :=
  wordWs "display" (optWordWs "all" (endWord "tasks"))

/-- `what\s+tasks\s+do\s+I\s+have` -/
def lstP4At : List Char → Option (List (List Char)) :=
  wordWs "what" (wordWs "tasks" (wordWs "do" (wordWs "i" (endWord "have"))))

/-- `my\s+tasks` -/
def lstP5At : List Char → Option (List (List Char)) :=
  wordWs "my" (endWord "tasks")

/-- `all\s+tasks` -/
def lstP6At : List Char → Option (List (List Char)) :=
  wordWs "all" (endWord "tasks")

/-- Tail `(\d+)\s+mid₁\s+…\s+midₙ\s+(\w+)` shared by the two-group update
patterns: a digit capture, the given middle words, a word capture. -/
def idValTail (mid : List String) : List Char → Option (List (List Char)) :=
  fun s => do
    let (d, r) ← capDigitsAt s
    let r ← ws1 r
    let r ← midWords mid r
    let (w, _) ← capWordAt r
    some [d, w]
where
  midWords : List String → List Char → Option (List Char)
    | [], s => some s
    | m :: ms, s => do midWords ms (← ws1 (← eatCI m.data s))

/-- A whole two-group update/delete-style pattern
`pre₁\s+…\s+preₙ\s+(\d+)\s+mid…\s+(\w+)`. -/
def idValPat (pre : List String) (mid : List String) : List Char → Option (List (List Char)) :=
  fun s => do
    let r ← preWords pre s
    idValTail mid r
where
  preWords : List String → List Char → Option (List Char)
    | [], s => some s
    | p :: ps, s => do preWords ps (← ws1 (← eatCI p.data s))

/-- A single-group pattern `pre₁\s+…\s+preₙ\s+(\d+)`. -/
def idOnlyPat (pre : List String) : List Char → Option (List (List Char)) :=
  fun s => do
    let r ← idValPat.preWords pre s
    let (d, _) ← capDigitsAt r
    some [d]

/-- `(?:mark|set)\s+task\s+(\d+)\s+as\s+(\w+)` -/
def updP1At (s : List Char) : Option (List (List Char)) :=
  (do idValTail ["as"] (← ws1 (← eatCI "task".data (← ws1 (← eatCI "mark".data s))))) <|>
  (do idValTail ["as"] (← ws1 (← eatCI "task".data (← ws1 (← eatCI "set".data s)))))

/-- `update\s+task\s+(\d+)\s+to\s+(\w+)` -/
def updP2At : List Char → Option (List (List Char)) := idValPat ["update", "task"] ["to"]

/-- `change\s+task\s+(\d+)\s+to\s+(\w+)` -/
def updP3At : List Char → Option (List (List Char)) := idValPat ["change", "task"] ["to"]

/-- `task\s+(\d+)\s+is\s+now\s+(\w+)` -/
def updP4At : List Char → Option (List (List Char)) := idValPat ["task"] ["is", "now"]

/-- `mark\s+(\d+)\s+as\s+(\w+)` -/
def updP5At : List Char → Option (List (List Char)) := idValPat ["mark"] ["as"]

/-- `complete\s+task\s+(\d+)` -/
def updP6At : List Char → Option (List (List Char)) := idOnlyPat ["complete", "task"]

/-- `finish\s+task\s+(\d+)` -/
def updP7At : List Char → Option (List (List Char)) := idOnlyPat ["finish", "task"]

/-- `update\s+(\d+)\s+to\s+(\w+)` -/
def updP8At : List Char → Option (List (List Char)) := idValPat ["update"] ["to"]

/-- `change\s+(\d+)\s+to\s+(\w+)` -/
def updP9At : List Char → Option (List (List Char)) := idValPat ["change"] ["to"]

/-- `set\s+(\d+)\s+to\s+(\w+)` -/
def updP10At : List Char → Option (List (List Char)) := idValPat ["set"] ["to"]

/-- `mark\s+task\s+(\d+)\s+as\s+(\w+)` -/
def updP11At : List Char → Option (List (List Char)) := idValPat ["mark", "task"] ["as"]

/-- `set\s+task\s+(\d+)\s+to\s+(\w+)` -/
def updP12At : List Char → Option (List (List Char)) := idValPat ["set", "task"] ["to"]

/-- `change\s+(\d+)\s+priority\s+to\s+(\w+)` -/
def updP13At : List Char → Option (List (List Char)) := idValPat ["change"] ["priority", "to"]

/-- `update\s+(\d+)\s+priority\s+to\s+(\w+)` -/
def updP14At : List Char → Option (List (List Char)) := idValPat ["update"] ["priority", "to"]

/-- `set\s+(\d+)\s+priority\s+to\s+(\w+)` -/
def updP15At : List Char → Option (List (List Char)) := idValPat ["set"] ["priority", "to"]

/-- `mark\s+(\d+)\s+priority\s+as\s+(\w+)` -/
def updP16At : List Char → Option (List (List Char)) := idValPat ["mark"] ["priority", "as"]

/-- `delete\s+task\s+(\d+)` -/
def delP1At : List Char → Option (List (List Char)) := idOnlyPat ["delete", "task"]

/-- `remove\s+task\s+(\d+)` -/
def delP2At : List Char → Option (List (List Char)) := idOnlyPat ["remove", "task"]

/-- `cancel\s+task\s+(\d+)` -/
def delP3At : List Char → Option (List (List Char)) := idOnlyPat ["cancel", "task"]

/-- `drop\s+task\s+(\d+)` -/
def delP4At : List Char → Option (List (List Char)) := idOnlyPat ["drop", "task"]

/-- `delete\s+(\d+)` -/
def delP5At : List Char → Option (List (List Char)) := idOnlyPat ["delete"]

/-- `remove\s+(\d+)` -/
def delP6At : List Char → Option (List (List Char)) := idOnlyPat ["remove"]

/-- `show\s+(?:task\s+)?statistics` -/
def staP1At : List Char → Option (List (List Char)) :=
  wordWs "show" (optWordWs "task" (endWord "statistics"))

/-- `display\s+(?:task\s+)?stats` -/
def staP2At : List Char → Option (List (List Char)) :=
  wordWs "display" (optWordWs "task" (endWord "stats"))

/-- `what\s+are\s+my\s+task\s+stats` -/
def staP3At : List Char → Option (List (List Char)) :=
  wordWs "what" (wordWs "are" (wordWs "my" (wordWs "task" (endWord "stats"))))

/-- `give\s+me\s+a\s+summary` -/
def staP4At : List Char → Option (List (List Char)) :=
  wordWs "give" (wordWs "me" (wordWs "a" (endWord "summary")))

/-- `stats` -/
def staP5At : List Char → Option (List (List Char)) := endWord "stats"

/-- `statistics` -/
def staP6At : List Char → Option (List (List Char)) := endWord "statistics"

/-- The ordered pattern table `self.command_patterns` (insertion order of the
Python dict, patterns in list order). -/
def commandPatterns : List (String × List (List Char → Option (List (List Char)))) :=
  [("add_task", [addP1At, addP2At, addP3At, addP4At, addP5At, addP6At]),
   ("search_tasks", [schP1At, schP2At, schP3At, schP4At, schP5At, schP6At]),
   ("list_tasks", [lstP1At, lstP2At, lstP3At, lstP4At, lstP5At, lstP6At]),
   ("update_task", [updP1At, updP2At, updP3At, updP4At, updP5At, updP6At, updP7At,
                    updP8At, updP9At, updP10At, updP11At, updP12At, updP13At,
                    updP14At, updP15At, updP16At]),
   ("delete_task", [delP1At, delP2At, delP3At, delP4At, delP5At, delP6At]),
   ("show_stats", [staP1At, staP2At, staP3At, staP4At, staP5At, staP6At])]

/-- The double loop of `parse_command` over categories and patterns:
first category (in declared order) with a matching pattern wins, with the
first matching pattern's groups. -/
def classify (t : List Char) : Option (String × List (List Char)) :=
  commandPatterns.findSome? fun e =>
    e.2.findSome? fun p => (scan p t).map (fun caps => (e.1, caps))

/-! ## `\b`-delimited word matchers used by the entity extractors -/

/-- Tail of a `\b`-pattern: the given words separated by `\s+`, then `\b`.
Words are given as `List Char`. -/
def wordsAt : List (List Char) → List Char → Option (List Char)
  | [], s => if endBoundary s then some s else none
  | [w], s => do
    let r ← eatCI w s
    if endBoundary r then some r else none
  | w :: ws, s => do wordsAt ws (← ws1 (← eatCI w s))

/-- `\bw₁\s+…\s+wₙ\b` searched anywhere in the text (`re.search`). -/
def bSearch (ws : List String) (t : List Char) : Bool :=
  (scanB (wordsAt (ws.map String.data)) t).isSome

/-- `\b(?:alt₁|alt₂|…)\b` where each alternative is a word sequence,
searched anywhere; alternatives tried in the regex's order. -/
def bSearchAlts (alts : List (List String)) (t : List Char) : Bool :=
  (scanB (fun s => alts.findSome? (fun ws => wordsAt (ws.map String.data) s)) t).isSome

/-- The weekday alternation `(monday|tuesday|wednesday|thursday|friday|saturday|sunday)\b`,
returning the captured name. -/
def weekdayAltAt (s : List Char) : Option (List Char) :=
  ["monday", "tuesday", "wednesday", "thursday", "friday", "saturday", "sunday"].findSome?
    fun w => do
      let r ← eatCI w.data s
      if endBoundary r then some w.data else none

/-- `\bnext\s+(monday|…|sunday)\b`: captured weekday name. -/
def searchNextWd (t : List Char) : Option (List Char) :=
  scanB (fun s => do weekdayAltAt (← ws1 (← eatCI "next".data s))) t

/-- `\bthis\s+(monday|…|sunday)\b`: captured weekday name. -/
def searchThisWd (t : List Char) : Option (List Char) :=
  scanB (fun s => do weekdayAltAt (← ws1 (← eatCI "this".data s))) t

/-- `\bin\s+(\d+)\s+unit s?\b` (unit ∈ day/week/month): captured digits.
The optional plural `s` is tried greedily, exactly like the regex. -/
def searchInUnit (unit : String) (t : List Char) : Option (List Char) :=
  scanB (fun s => do
    let r ← ws1 (← eatCI "in".data s)
    let (d, r) ← capDigitsAt r
    let r ← ws1 r
    let r ← eatCI unit.data r
    (do
      let r' ← eatCI "s".data r
      if endBoundary r' then some d else none) <|>
    (if endBoundary r then some d else none)) t

/-- A maximal digit run of length between `lo` and `hi`; equivalent to the
backtracking semantics of `\d{lo,hi}` here because the context after the
run can never absorb a digit (see the call sites). -/
def capDigitsBetween (lo hi : Nat) (s : List Char) : Option (List Char × List Char) :=
  let r := s.takeWhile isDigitChar
  if lo ≤ r.length ∧ r.length ≤ hi then some (r, s.drop r.length) else none

/-- The separator class of the numeric-date pattern: a slash or a hyphen. -/
def eatSep : List Char → Option (List Char)
  | [] => none
  | c :: cs => if c = '/' ∨ c = '-' then some cs else none

/-- The numeric-date pattern (`\b`, one or two digits, separator, one or two
digits, separator, two to four digits, `\b`): the three captured digit
strings `(month, day, year)`. -/
def searchNumericDate (t : List Char) : Option (List Char × List Char × List Char) :=
  scanB (fun s => do
    let (m, r) ← capDigitsBetween 1 2 s
    let r ← eatSep r
    let (d, r) ← capDigitsBetween 1 2 r
    let r ← eatSep r
    let (y, r) ← capDigitsBetween 2 4 r
    if endBoundary r then some (m, d, y) else none) t

/-- The month-name alternation of the source, in its order. -/
def monthNames : List String :=
  ["january", "february", "march", "april", "may", "june", "july", "august",
   "september", "october", "november", "december"]

/-- `\b(january|…|december)\s+(\d{1,2})\b`: captured name and day digits. -/
def searchMonthName (t : List Char) : Option (List Char × List Char) :=
  scanB (fun s => do
    let name ← monthNames.findSome? (fun w => (eatCI w.data s).map (fun r => (w.data, r)))
    let r ← ws1 name.2
    let (d, r) ← capDigitsBetween 1 2 r
    if endBoundary r then some (name.1, d) else none) t

/-! ## Weekday and month tables -/

/-- `day_map` of `_get_next_weekday` / `_get_this_weekday`
(with the `.get(name, 0)` default). -/
def dayMap (name : List Char) : Nat :=
  if name = "monday".data then 0
  else if name = "tuesday".data then 1
  else if name = "wednesday".data then 2
  else if name = "thursday".data then 3
  else if name = "friday".data then 4
  else if name = "saturday".data then 5
  else if name = "sunday".data then 6
  else 0

/-- `_month_name_to_number` (with the `.get(name, 1)` default). -/
def monthNameToNumber (name : List Char) : Nat :=
  if name = "january".data then 1
  else if name = "february".data then 2
  else if name = "march".data then 3
  else if name = "april".data then 4
  else if name = "may".data then 5
  else if name = "june".data then 6
  else if name = "july".data then 7
  else if name = "august".data then 8
  else if name = "september".data then 9
  else if name = "october".data then 10
  else if name = "november".data then 11
  else if name = "december".data then 12
  else 1

/-- `_get_next_weekday`: next future occurrence of the weekday (a full week
ahead when it is today). -/
def getNextWeekday (today : PyDate) (name : List Char) : List Char :=
  let target : Int := dayMap name
  let daysAhead : Int := target - (today.weekday : Int)
  let daysAhead := if daysAhead ≤ 0 then daysAhead + 7 else daysAhead
  fmtDate (addDays today daysAhead.toNat)

/-- `_get_this_weekday`: this week's occurrence, or `None` when it lies
strictly in the past. -/
def getThisWeekday (today : PyDate) (name : List Char) : Option (List Char) :=
  let target : Int := dayMap name
  let daysAhead : Int := target - (today.weekday : Int)
  if daysAhead < 0 then none
  else some (fmtDate (addDays today daysAhead.toNat))

/-- Python `str.zfill(2)` on a digit string. -/
def zfill2 (l : List Char) : List Char := List.replicate (2 - l.length) '0' ++ l

/-- `_parse_due_date`: the ordered first-match-wins rule chain.  The anchor
`today` is the `datetime.now()` of the source.  Returns `ValueError` exactly
when the `replace(year=…, month=…)` of the "in N months" rule does
(anchor day absent from the target month). -/
def parseDueDate (text : List Char) (today : PyDate) : Except PyErr (Option (List Char)) :=
  let t := lowerStr text
  if bSearch ["today"] t then .ok (some (fmtDate today))
  else if bSearch ["tomorrow"] t then .ok (some (fmtDate (addDays today 1)))
  else if bSearch ["yesterday"] t then .ok (some (fmtDate (subDays today 1)))
  else if bSearch ["this", "morning"] t then .ok (some (fmtDate today))
  else if bSearch ["this", "afternoon"] t then .ok (some (fmtDate today))
  else if bSearch ["this", "evening"] t then .ok (some (fmtDate today))
  else if bSearch ["tonight"] t then .ok (some (fmtDate today))
  else if bSearch ["this", "week"] t then
    .ok (some (fmtDate (addDays today (6 - today.weekday))))
  else if bSearch ["next", "week"] t then
    .ok (some (fmtDate (addDays today (7 - today.weekday))))
  else if bSearch ["last", "week"] t then
    .ok (some (fmtDate (subDays today (today.weekday + 7))))
  else if bSearch ["this", "month"] t then
    .ok (some (fmtDate (subDays (withDay1 (addDays (withDay1 today) 32)) 1)))
  else if bSearch ["next", "month"] t then
    .ok (some (fmtDate (withDay1 (addDays (withDay1 today) 32))))
  else if bSearch ["last", "month"] t then
    .ok (some (fmtDate (withDay1 (subDays (withDay1 today) 1))))
  else if bSearch ["end", "of", "month"] t then
    .ok (some (fmtDate (subDays (withDay1 (addDays (withDay1 today) 32)) 1)))
  else if bSearch ["end", "of", "week"] t then
    .ok (some (fmtDate (addDays today (6 - today.weekday))))
  else if bSearch ["end", "of", "year"] t then
    .ok (some (fmtDate (endOfYear today)))
  else
    match searchNextWd t with
    | some name => .ok (some (getNextWeekday today name))
    | none =>
    match searchThisWd t with
    | some name => .ok (getThisWeekday today name)
    | none =>
    match searchInUnit "day" t with
    | some ds => .ok (some (fmtDate (addDays today (natOfDigits ds))))
    | none =>
    match searchInUnit "week" t with
    | some ds => .ok (some (fmtDate (addDays today (7 * natOfDigits ds))))
    | none =>
    match searchInUnit "month" t with
    | some ds =>
      let months := natOfDigits ds
      let newMonth := today.month + months
      let newYear := today.year + (newMonth - 1) / 12
      let newMonth := ((newMonth - 1) % 12) + 1
      (replaceYM today newYear newMonth).map (fun d => some (fmtDate d))
    | none =>
    match searchNumericDate t with
    | some (m, d, y) =>
      let y := if y.length = 2 then '2' :: '0' :: y else y
      .ok (some (y ++ '-' :: (zfill2 m ++ '-' :: zfill2 d)))
    | none =>
    match searchMonthName t with
    | some (name, dayS) =>
      let mn := monthNameToNumber name
      let year :=
        if mn < today.month ∨ (mn = today.month ∧ natOfDigits dayS < today.day) then
          today.year + 1
        else today.year
      .ok (some (natDigits year ++ '-' :: (pad2 mn ++ '-' :: pad2 (natOfDigits dayS))))
    | none => .ok none

/-! ## Entity extractors -/

/-- Priority keyword sets of `_extract_entities`, in dict order. -/
def priorityPatterns : List (String × List String) :=
  [("high", ["urgent", "critical", "asap", "emergency", "high", "important", "priority"]),
   ("medium", ["medium", "normal", "moderate"]),
   ("low", ["low", "minor", "optional"])]

/-- Status keyword sets of `_extract_entities`, in dict order; alternatives
may be multi-word (`in\s+progress`, `not\s+started`). -/
def statusPatterns : List (String × List (List String)) :=
  [("completed", [["done"], ["completed"], ["finished"], ["complete"]]),
   ("in_progress", [["in", "progress"], ["working"], ["ongoing"]]),
   ("pending", [["pending"], ["waiting"], ["not", "started"]])]

/-- Priority extraction: first keyword set with a whole-word hit wins. -/
def extractPriority (u : List Char) : Option String :=
  (priorityPatterns.find? fun e => bSearchAlts (e.2.map ([·])) u).map (·.1)

/-- Status extraction: first keyword set with a hit wins. -/
def extractStatus (u : List Char) : Option String :=
  (statusPatterns.find? fun e => bSearchAlts e.2 u).map (·.1)

/-- Capture for `lead[:\s]+([^,]+)`-style patterns: a non-empty greedy run of
`cls` characters (`':'`/whitespace — never a comma), then a non-empty capture
up to the next comma.  When the run is followed by a comma or the end, the
regex backtracks one class character into the capture. -/
def clsCapAt (cls : Char → Bool) (s : List Char) : Option (List Char) :=
  let run := s.takeWhile cls
  if run.isEmpty then none
  else
    match s.drop run.length with
    | c :: rest =>
      if c ≠ ',' then some ((c :: rest).takeWhile (fun d => d ≠ ','))
      else if 2 ≤ run.length then some [run.getLastD ' '] else none
    | [] => if 2 ≤ run.length then some [run.getLastD ' '] else none

/-- The class `[:\s]`. -/
def isColonWs (c : Char) : Bool := c = ':' || isPySpace c

/-- `lead[:\s]+([^,]+)` at a position. -/
def descAt (lead : String) (s : List Char) : Option (List Char) := do
  clsCapAt isColonWs (← eatCI lead.data s)

/-- Description extraction of `_extract_add_task_details`: the patterns
`description[:\s]+([^,]+)`, `about[:\s]+([^,]+)`, `for[:\s]+([^,]+)` in
order, first match wins, group stripped; no match → empty string. -/
def extractDescription (u : List Char) : List Char :=
  match scan (descAt "description") u with
  | some d => pyStrip d
  | none =>
  match scan (descAt "about") u with
  | some d => pyStrip d
  | none =>
  match scan (descAt "for") u with
  | some d => pyStrip d
  | none => []

/-- `tags?[:\s]+([^,]+)` at a position (optional `s` tried greedily). -/
def tagP1At (s : List Char) : Option (List Char) := do
  let r ← eatCI "tag".data s
  (do clsCapAt isColonWs (← eatCI "s".data r)) <|> clsCapAt isColonWs r

/-- `category[:\s]+([^,]+)` at a position. -/
def tagP2At (s : List Char) : Option (List Char) := do
  clsCapAt isColonWs (← eatCI "category".data s)

/-- `with\s+tags?\s+([^,]+)` at a position. -/
def tagP3At (s : List Char) : Option (List Char) := do
  let r ← eatCI "tag".data (← ws1 (← eatCI "with".data s))
  (do clsCapAt isPySpace (← eatCI "s".data r)) <|> clsCapAt isPySpace r

/-- Explicit tags: the first matching of the three explicit patterns,
comma-split and stripped (`break` after the first hit). -/
def explicitTags (u : List Char) : List (List Char) :=
  match scan tagP1At u with
  | some g => (pySplitComma g).map pyStrip
  | none =>
  match scan tagP2At u with
  | some g => (pySplitComma g).map pyStrip
  | none =>
  match scan tagP3At u with
  | some g => (pySplitComma g).map pyStrip
  | none => []

/-- `category_keywords` of `_extract_implicit_tags`, in dict order. -/
def categoryKeywords : List (String × List String) :=
  [("work", ["work", "job", "office", "meeting", "presentation", "client", "project",
             "deadline", "report", "email", "call", "conference"]),
   ("personal", ["personal", "home", "family", "friend", "relationship", "life"]),
   ("shopping", ["buy", "purchase", "shop", "grocery", "store", "market", "mall", "online"]),
   ("health", ["health", "medical", "doctor", "dentist", "exercise", "gym", "workout",
               "fitness", "wellness", "appointment"]),
   ("finance", ["money", "finance", "bank", "bill", "payment", "budget", "expense",
                "investment", "tax", "insurance"]),
   ("learning", ["learn", "study", "course", "book", "read", "education", "training",
                 "skill", "knowledge", "research"]),
   ("travel", ["travel", "trip", "vacation", "flight", "hotel", "booking",
               "reservation", "destination"]),
   ("cleaning", ["clean", "organize", "tidy", "declutter", "laundry", "dishes", "housework"]),
   ("cooking", ["cook", "meal", "food", "recipe", "dinner", "lunch", "breakfast", "kitchen"]),
   ("entertainment", ["movie", "game", "music", "party", "event", "fun",
                      "entertainment", "hobby"]),
   ("urgent", ["urgent", "asap", "emergency", "critical", "immediate", "rush"]),
   ("important", ["important", "priority", "key", "essential", "vital"]),
   ("routine", ["routine", "daily", "weekly", "monthly", "regular", "habit"])]

/-- `specific_items` of `_extract_implicit_tags`, in list order. -/
def specificItems : List String :=
  ["groceries", "milk", "bread", "eggs", "vegetables", "fruits",
   "meeting", "call", "email", "presentation", "report",
   "exercise", "gym", "workout", "running", "yoga",
   "doctor", "dentist", "appointment", "checkup",
   "bill", "payment", "rent", "mortgage", "insurance",
   "book", "reading", "study", "course", "class",
   "cleaning", "laundry", "dishes", "organizing",
   "cooking", "meal", "dinner", "lunch", "breakfast"]

/-- `_extract_implicit_tags` (its `title` parameter is never consulted by the
source body, which only tests `text`): category names whose any keyword is a
substring of the lower-cased text, then specific items appearing as
substrings. -/
def implicitTags (text : List Char) : List (List Char) :=
  (categoryKeywords.filter fun e => e.2.any fun k => subIn k.data text).map (·.1.data) ++
    (specificItems.filter fun i => subIn i.data text).map String.data

/-- `_extract_time_tags`. -/
def timeTags (text : List Char) : List (List Char) :=
  (if bSearch ["today"] text then ["today".data] else []) ++
  (if bSearch ["tomorrow"] text then ["tomorrow".data] else []) ++
  (if bSearch ["this", "week"] text then ["this_week".data] else []) ++
  (if bSearch ["next", "week"] text then ["next_week".data] else []) ++
  (if bSearch ["this", "month"] text then ["this_month".data] else []) ++
  (if bSearch ["next", "month"] text then ["next_month".data] else []) ++
  (if bSearch ["weekend"] text then ["weekend".data] else []) ++
  (if bSearch ["weekday"] text then ["weekday".data] else []) ++
  (if bSearch ["morning"] text then ["morning".data] else []) ++
  (if bSearch ["afternoon"] text then ["afternoon".data] else []) ++
  (if bSearch ["evening"] text then ["evening".data] else []) ++
  (if bSearch ["night"] text then ["night".data] else [])

/-- The iteration order that `list(set(…))` happens to produce; fixed for the
lifetime of a CPython process (hash seed), abstracted as a parameter. -/
def SetOrder := List (List Char) → List (List Char)

/-- A faithful `list(set(l))`: some duplicate-free enumeration of the
elements of `l`, i.e. a permutation of `l.dedup`. -/
def IsSetOrder (ord : SetOrder) : Prop :=
  ∀ l, (ord l).Perm l.dedup

/-- A concrete admissible `SetOrder` used to instantiate theorems. -/
def pyDedup : SetOrder := fun l => l.dedup

/-- `_extract_tags_from_text`: explicit ∪ implicit ∪ time-based tags, then
strip / drop empties / de-duplicate via `list(set(…))`.  (The source passes
`title` separately but `_extract_implicit_tags` never reads it.) -/
def extractTagsFromText (ord : SetOrder) (u : List Char) (_title : List Char) :
    List (List Char) :=
  let tags := explicitTags u ++ implicitTags (lowerStr u) ++ timeTags (lowerStr u)
  ord ((tags.map pyStrip).filter (fun t => ¬ t.isEmpty))

/-! ## The Command value and the detail builders -/

/-- The dictionary returned by `parse_command`, as a record of optional
fields (a key is present iff the option is `some`). -/
structure Command where
  command_type : String
  confidence : ℚ
  raw_input : String
  priority : Option String := none
  status : Option String := none
  due_date : Option String := none
  title : Option String := none
  description : Option String := none
  tags : Option (List String) := none
  query : Option String := none
  task_id : Option Nat := none
  field : Option String := none
  value : Option String := none
  error : Option String := none
  deriving Repr, DecidableEq

/-- `_extract_update_details`: task id from group 1, raw value from group 2
(empty when the pattern has one group), field inferred from keywords of the
input, value normalised per field. -/
def extractUpdateDetails (u : List Char) (caps : List (List Char)) :
    Option Nat × String × String :=
  let taskId := if caps.isEmpty then none else some (natOfDigits (caps.headD []))
  let newValue := if 1 < caps.length then caps.getD 1 [] else []
  let lu := lowerStr u
  let field :=
    if subIn "priority".data lu || subIn "important".data lu then "priority"
    else if subIn "title".data lu || subIn "name".data lu then "title"
    else if subIn "description".data lu || subIn "desc".data lu then "description"
    else "status"
  let lv := lowerStr newValue
  let value :=
    if field = "status" then
      if subIn "complete".data lv || subIn "done".data lv || subIn "finish".data lv then
        "completed"
      else if subIn "progress".data lv || subIn "working".data lv then "in_progress"
      else "pending"
    else if field = "priority" then
      if subIn "high".data lv || subIn "urgent".data lv || subIn "important".data lv then
        "high"
      else if subIn "low".data lv || subIn "minor".data lv then "low"
      else "medium"
    else String.mk newValue
  (taskId, field, value)

/-- The pure part of `_extract_command_details`: the base dictionary (type,
confidence 0.9, raw input), the entity extractors' results (`pr`, `st`,
`due` already computed), then the category-specific details. -/
def buildDetails (ord : SetOrder) (ct : String) (u : List Char)
    (caps : List (List Char)) (pr st : Option String) (due : Option (List Char)) :
    Command :=
  let base : Command :=
    { command_type := ct, confidence := 0.9, raw_input := String.mk u,
      priority := pr, status := st, due_date := due.map String.mk }
  if ct = "add_task" then
    let title := caps.headD []
    { base with
      title := some (String.mk title),
      description := some (String.mk (extractDescription u)),
      tags := some ((extractTagsFromText ord u title).map String.mk) }
  else if ct = "search_tasks" then
    { base with query := some (String.mk (caps.headD [])) }
  else if ct = "update_task" then
    let d := extractUpdateDetails u caps
    { base with task_id := d.1, field := some d.2.1, value := some d.2.2 }
  else if ct = "delete_task" then
    { base with
      task_id := if caps.isEmpty then none else some (natOfDigits (caps.headD [])) }
  else base

/-- `_extract_command_details`: runs the entity extractors (the due-date
extractor may raise) and assembles the command. -/
def extractCommandDetails (ord : SetOrder) (today : PyDate) (ct : String)
    (u : List Char) (caps : List (List Char)) : Except PyErr Command :=
  match parseDueDate u today with
  | .error e => .error e
  | .ok due => .ok (buildDetails ord ct u caps (extractPriority u) (extractStatus u) due)

/-! ## Keyword inference (`_infer_command`) -/

/-- `' '.join(…)`. -/
def joinSpace (ws : List (List Char)) : List Char := List.intercalate [' '] ws

/-- `_extract_title_from_text`: prefer the first quoted substring; otherwise
the first three words that are not command words; otherwise the text. -/
def extractTitleFromText (text : List Char) : String :=
  match scan (fun s => (quotedCapAt s).map (·.1)) text with
  | some q => String.mk q
  | none =>
    let commandWords := ["add", "create", "new", "task", "a", "an"]
    let meaningful :=
      (pySplitWs text).filter fun w => ¬ commandWords.any (fun c => c.data = lowerStr w)
    if meaningful.isEmpty then String.mk text
    else String.mk (joinSpace (meaningful.take 3))

/-- `_extract_query_from_text`: all words that are not command stop-words. -/
def extractQueryFromText (text : List Char) : String :=
  let commandWords := ["find", "search", "look", "for", "show", "me", "tasks", "about"]
  String.mk (joinSpace
    ((pySplitWs text).filter fun w => ¬ commandWords.any (fun c => c.data = lowerStr w)))

/-- `_infer_command`: keyword-based fallback when no pattern matched. -/
def inferCommand (u : List Char) : Command :=
  let lu := lowerStr u
  if ["add", "create", "new", "make"].any (fun w => subIn w.data lu) then
    { command_type := "add_task", confidence := 0.7, raw_input := String.mk u,
      title := some (extractTitleFromText u) }
  else if ["find", "search", "look", "show"].any (fun w => subIn w.data lu) then
    { command_type := "search_tasks", confidence := 0.7, raw_input := String.mk u,
      query := some (extractQueryFromText u) }
  else if ["list", "all", "tasks"].any (fun w => subIn w.data lu) then
    { command_type := "list_tasks", confidence := 0.8, raw_input := String.mk u }
  else if ["stats", "statistics", "summary"].any (fun w => subIn w.data lu) then
    { command_type := "show_stats", confidence := 0.8, raw_input := String.mk u }
  else
    { command_type := "unknown", confidence := 0, raw_input := String.mk u,
      error := some "Could not understand command" }

/-- `parse_command`: strip, lower, try the pattern table, else infer. -/
def parse (ord : SetOrder) (today : PyDate) (input : String) : Except PyErr Command :=
  let stripped := pyStrip input.data
  let lowered := lowerStr stripped
  match classify lowered with
  | some r => extractCommandDetails ord today r.1 stripped r.2
  | none => .ok (inferCommand stripped)

/-- The fixed anchor used to instantiate theorems on concrete inputs:
Monday, 2025-06-02 (`weekday() = 0`). -/
def anchorMon : PyDate := ⟨2025, 6, 2, 0⟩

/-- A second anchor: Friday, 2025-01-31 (`weekday() = 4`), whose
day-of-month does not exist one month later. -/
def anchorJan31 : PyDate := ⟨2025, 1, 31, 4⟩

/-! ## Classifier characterization: first matching category wins -/

/-- The type of a modelled pattern's position matcher. -/
abbrev PatFun := List Char → Option (List (List Char))

/-- A category has some matching pattern on input `t`. -/
def catMatches (pats : List PatFun) (t : List Char) : Bool :=
  pats.any fun p => (scan p t).isSome

/-- The first category of the declared order with a matching pattern. -/
def firstCategory (t : List Char) : Option String :=
  (commandPatterns.find? fun e => catMatches e.2 t).map (·.1)

theorem findSome?_pats_isSome (pats : List PatFun) (t : List Char) (c : String) :
    (pats.findSome? fun p => (scan p t).map (fun caps => (c, caps))).isSome
      = catMatches pats t := by
  induction pats with
  | nil => rfl
  | cons p ps ih =>
    rw [List.findSome?_cons, catMatches, List.any_cons]
    cases h : scan p t with
    | none => simpa [h, catMatches] using ih
    | some caps => simp [h]

theorem findSome?_pats_cat (pats : List PatFun) (t : List Char) (c c' : String)
    (caps : List (List Char))
    (h : (pats.findSome? fun p => (scan p t).map (fun caps => (c, caps))) = some (c', caps)) :
    c' = c := by
  induction pats with
  | nil => simp [List.findSome?] at h
  | cons p ps ih =>
    rw [List.findSome?_cons] at h
    cases hp : scan p t with
    | none => exact ih (by simpa [hp] using h)
    | some l => simp [hp] at h; exact h.1.symm

theorem classifyGen_first (L : List (String × List PatFun)) (t : List Char)
    (c : String) (caps : List (List Char))
    (h : (L.findSome? fun e => e.2.findSome? fun p => (scan p t).map (fun caps => (e.1, caps)))
          = some (c, caps)) :
    (L.find? fun e => catMatches e.2 t).map (·.1) = some c := by
  induction L with
  | nil => simp [List.findSome?] at h
  | cons e L ih =>
    rw [List.findSome?_cons] at h
    cases hr : (e.2.findSome? fun p => (scan p t).map fun caps => (e.1, caps)) with
    | some r =>
      have hm : catMatches e.2 t = true := by
        rw [← findSome?_pats_isSome e.2 t e.1, hr]; rfl
      rw [hr] at h
      simp at h
      rw [List.find?_cons, hm]
      have := findSome?_pats_cat e.2 t e.1 c caps (by rw [hr, h])
      simp [this]
    | none =>
      have hm : catMatches e.2 t = false := by
        rw [← findSome?_pats_isSome e.2 t e.1, hr]; rfl
      rw [hr] at h
      simp at h
      rw [List.find?_cons, hm]
      exact ih h

theorem classifyGen_exists (L : List (String × List PatFun)) (t : List Char)
    (e0 : String × List PatFun)
    (h : L.find? (fun e => catMatches e.2 t) = some e0) :
    ∃ caps,
      (L.findSome? fun e => e.2.findSome? fun p => (scan p t).map (fun caps => (e.1, caps)))
        = some (e0.1, caps) := by
  induction L with
  | nil => simp at h
  | cons e L ih =>
    rw [List.findSome?_cons]
    rw [List.find?_cons] at h
    cases hr : (e.2.findSome? fun p => (scan p t).map fun caps => (e.1, caps)) with
    | some r =>
      have hm : catMatches e.2 t = true := by
        rw [← findSome?_pats_isSome e.2 t e.1, hr]; rfl
      rw [hm] at h
      simp at h
      have hc := findSome?_pats_cat e.2 t e.1 r.1 r.2 (by rw [hr])
      refine ⟨r.2, ?_⟩
      simp [← h, ← hc]
    | none =>
      have hm : catMatches e.2 t = false := by
        rw [← findSome?_pats_isSome e.2 t e.1, hr]; rfl
      rw [hm] at h
      simpa using ih h

theorem classify_firstCategory (t : List Char) (c : String) (caps : List (List Char))
    (h : classify t = some (c, caps)) : firstCategory t = some c :=
  classifyGen_first commandPatterns t c caps h

theorem firstCategory_classify (t : List Char) (c : String)
    (h : firstCategory t = some c) : ∃ caps, classify t = some (c, caps) := by
  rw [firstCategory] at h
  cases he : commandPatterns.find? fun e => catMatches e.2 t with
  | none => rw [he] at h; simp at h
  | some e0 =>
    rw [he] at h
    simp at h
    obtain ⟨caps, hc⟩ := classifyGen_exists commandPatterns t e0 he
    exact ⟨caps, by unfold classify; rw [hc, h]⟩

/-! ## Plumbing lemmas about `parse` -/

theorem buildDetails_base (ord : SetOrder) (ct : String) (u : List Char)
    (caps : List (List Char)) (pr st : Option String) (due : Option (List Char)) :
    (buildDetails ord ct u caps pr st due).command_type = ct ∧
    (buildDetails ord ct u caps pr st due).confidence = 0.9 ∧
    (buildDetails ord ct u caps pr st due).raw_input = String.mk u ∧
    (buildDetails ord ct u caps pr st due).due_date = due.map String.mk := by
  unfold buildDetails
  split_ifs <;> exact ⟨rfl, rfl, rfl, rfl⟩

theorem parse_classified (ord : SetOrder) (today : PyDate) (s : String)
    (r : String × List (List Char))
    (h : classify (lowerStr (pyStrip s.data)) = some r) :
    parse ord today s = extractCommandDetails ord today r.1 (pyStrip s.data) r.2 := by
  unfold parse
  dsimp only
  rw [h]

theorem parse_unclassified (ord : SetOrder) (today : PyDate) (s : String)
    (h : classify (lowerStr (pyStrip s.data)) = none) :
    parse ord today s = .ok (inferCommand (pyStrip s.data)) := by
  unfold parse
  dsimp only
  rw [h]

theorem inferCommand_fields (u : List Char) :
    (inferCommand u).raw_input = String.mk u ∧ (inferCommand u).due_date = none := by
  unfold inferCommand
  dsimp only
  split_ifs <;> exact ⟨rfl, rfl⟩

theorem extractCommandDetails_ok (ord : SetOrder) (today : PyDate) (ct : String)
    (u : List Char) (caps : List (List Char)) (cmd : Command)
    (h : extractCommandDetails ord today ct u caps = .ok cmd) :
    ∃ due, parseDueDate u today = .ok due ∧
      cmd = buildDetails ord ct u caps (extractPriority u) (extractStatus u) due := by
  unfold extractCommandDetails at h
  cases hd : parseDueDate u today with
  | error e => rw [hd] at h; exact absurd h (by simp)
  | ok due =>
    rw [hd] at h
    injection h with h
    exact ⟨due, rfl, h.symm⟩

theorem parse_ok_raw (ord : SetOrder) (today : PyDate) (s : String) (cmd : Command)
    (h : parse ord today s = .ok cmd) :
    cmd.raw_input = String.mk (pyStrip s.data) := by
  cases hc : classify (lowerStr (pyStrip s.data)) with
  | none =>
    rw [parse_unclassified ord today s hc] at h
    injection h with h
    rw [← h]
    exact (inferCommand_fields _).1
  | some r =>
    rw [parse_classified ord today s r hc] at h
    obtain ⟨due, _, hb⟩ := extractCommandDetails_ok ord today r.1 _ r.2 cmd h
    rw [hb]
    exact (buildDetails_base ord r.1 _ r.2 _ _ due).2.2.1

theorem parse_ok_type_conf (ord : SetOrder) (today : PyDate) (s : String)
    (r : String × List (List Char)) (cmd : Command)
    (hc : classify (lowerStr (pyStrip s.data)) = some r)
    (h : parse ord today s = .ok cmd) :
    cmd.command_type = r.1 ∧ cmd.confidence = 0.9 := by
  rw [parse_classified ord today s r hc] at h
  obtain ⟨due, _, hb⟩ := extractCommandDetails_ok ord today r.1 _ r.2 cmd h
  rw [hb]
  exact ⟨(buildDetails_base ord r.1 _ r.2 _ _ due).1,
         (buildDetails_base ord r.1 _ r.2 _ _ due).2.1⟩

theorem parse_ok_due (ord : SetOrder) (today : PyDate) (s : String)
    (r : String × List (List Char)) (cmd : Command)
    (hc : classify (lowerStr (pyStrip s.data)) = some r)
    (h : parse ord today s = .ok cmd) :
    ∃ due, parseDueDate (pyStrip s.data) today = .ok due ∧
      cmd.due_date = due.map String.mk := by
  rw [parse_classified ord today s r hc] at h
  obtain ⟨due, hdue, hb⟩ := extractCommandDetails_ok ord today r.1 _ r.2 cmd h
  rw [hb]
  exact ⟨due, hdue, (buildDetails_base ord r.1 _ r.2 _ _ due).2.2.2⟩


/-! ## Claims -/

/-- C1: the spec says `parse` never raises and always returns a Command, in
particular for "in N months" phrases at any anchor.  The code violates this:
with anchor 2025-01-31 (a Friday), parsing "my tasks in 1 month" reaches
`today.replace(year=2025, month=2)` with day 31, and `datetime.replace`
raises `ValueError: day is out of range for month`.  This theorem evaluates
the embedded code at that failing input. -/
theorem claimC1 : parse pyDedup anchorJan31 "my tasks in 1 month" = .error .valueError := rfl

/-- C2 counterexample: on the exact spec example the returned Command has no
`priority`, no `due_date` and no `tags` key at all (the claim demands
priority "high", tomorrow's date, and tags "shopping"/"tomorrow").  The
sentence matches no pattern — `add\s+(?:a\s+)?task` requires "task" right
after "add (a)" — so it takes the keyword-inference path, which never runs
the entity extractors. -/
theorem claimC2_counterexample :
    (parse pyDedup anchorMon "add a high priority task to buy groceries tomorrow").toOption.map
      (fun k => (k.command_type, k.priority, k.due_date, k.tags))
      = some ("add_task", none, none, none) := rfl

/-- C2 amended: for every set order and every anchor date, parsing
"add a high priority task to buy groceries tomorrow" yields the inferred
command: category `add_task` with confidence 0.7, title "high priority to"
(first three non-command words), and no priority/due-date/tag fields. -/
theorem claimC2 :
    ∀ (ord : SetOrder) (today : PyDate),
      parse ord today "add a high priority task to buy groceries tomorrow" =
        .ok { command_type := "add_task", confidence := 0.7,
              raw_input := "add a high priority task to buy groceries tomorrow",
              title := some "high priority to" } := fun _ _ => rfl

/-- C9 counterexample: `parse_command` strips the input before storing it,
so for an input with surrounding whitespace `raw_input` is not the original
text verbatim. -/
theorem claimC9_counterexample :
    (parse pyDedup anchorMon "  list all tasks  ").toOption.map Command.raw_input
        = some "list all tasks" ∧
      ("list all tasks" : String) ≠ "  list all tasks  " := ⟨rfl, by decide⟩

/-- C9 amended: for every input, the `raw_input` field of the returned
Command is the input with leading and trailing whitespace stripped (hence
verbatim exactly when the input has none). -/
theorem claimC9 (ord : SetOrder) (today : PyDate) (s : String) (cmd : Command)
    (h : parse ord today s = .ok cmd) :
    cmd.raw_input = String.mk (pyStrip s.data) :=
  parse_ok_raw ord today s cmd h

/-- The Command produced for the C9 witness input. -/
def cmdListAll : Command :=
  { command_type := "list_tasks", confidence := 0.9, raw_input := "list all tasks" }

/-- Witness for C9: concrete instantiation at "  list all tasks  ". -/
theorem claimC9_witness :
    (parse pyDedup anchorMon "  list all tasks  ").toOption.map Command.raw_input
      = some (String.mk (pyStrip "  list all tasks  ".data)) := by
  have h := claimC9 pyDedup anchorMon "  list all tasks  " cmdListAll rfl
  rw [show parse pyDedup anchorMon "  list all tasks  " = .ok cmdListAll from rfl]
  show some cmdListAll.raw_input = _
  rw [h]

/-- C5: for every input matched by at least one pattern rule, the returned
category is the first category in the declared order that has a matching
pattern, and the returned confidence is exactly 0.9; in particular
`parse("list all tasks")` gives `list_tasks` with confidence 0.9 ≥ 0.8. -/
theorem claimC5 :
    (∀ (ord : SetOrder) (today : PyDate) (s : String) (c : String) (cmd : Command),
      firstCategory (lowerStr (pyStrip s.data)) = some c →
      parse ord today s = .ok cmd →
      cmd.command_type = c ∧ cmd.confidence = 0.9) ∧
    (parse pyDedup anchorMon "list all tasks").toOption.map
        (fun k => (k.command_type, k.confidence)) = some ("list_tasks", 0.9) ∧
    (0.8 : ℚ) ≤ 0.9 := by
  refine ⟨?_, rfl, by norm_num⟩
  intro ord today s c cmd hf hp
  obtain ⟨caps, hc⟩ := firstCategory_classify _ c hf
  exact parse_ok_type_conf ord today s (c, caps) cmd hc hp

/-- Witness for C5: the universal part instantiated at "list all tasks". -/
theorem claimC5_witness :
    (parse pyDedup anchorMon "list all tasks").toOption.map
      (fun k => (k.command_type, k.confidence)) = some ("list_tasks", (0.9 : ℚ)) := by
  have h := claimC5.1 pyDedup anchorMon "list all tasks" "list_tasks" cmdListAll rfl rfl
  rw [show parse pyDedup anchorMon "list all tasks" = .ok cmdListAll from rfl]
  show some (cmdListAll.command_type, cmdListAll.confidence) = _
  rw [h.1, h.2]

/-- C10: a single-group update match (e.g. "complete task N", "finish task
N") with no priority/title/description field keyword in the input yields
field "status" and value "pending": the missing second group defaults to
the empty string, which status normalisation maps to "pending". -/
theorem claimC10 (ord : SetOrder) (today : PyDate) (s : String) (cmd : Command)
    (ds : List Char)
    (hc : classify (lowerStr (pyStrip s.data)) = some ("update_task", [ds]))
    (h1 : subIn "priority".data (lowerStr (pyStrip s.data)) = false)
    (h2 : subIn "important".data (lowerStr (pyStrip s.data)) = false)
    (h3 : subIn "title".data (lowerStr (pyStrip s.data)) = false)
    (h4 : subIn "name".data (lowerStr (pyStrip s.data)) = false)
    (h5 : subIn "description".data (lowerStr (pyStrip s.data)) = false)
    (h6 : subIn "desc".data (lowerStr (pyStrip s.data)) = false)
    (hp : parse ord today s = .ok cmd) :
    cmd.field = some "status" ∧ cmd.value = some "pending" ∧
      cmd.task_id = some (natOfDigits ds) := by
  rw [parse_classified ord today s _ hc] at hp
  obtain ⟨due, hdue, hb⟩ := extractCommandDetails_ok _ _ _ _ _ _ hp
  rw [hb]
  simp +decide [buildDetails, extractUpdateDetails, h1, h2, h3, h4, h5, h6]

/-- The Command produced for the C10 witness input "complete task 5". -/
def cmdC10 : Command :=
  { command_type := "update_task", confidence := 0.9, raw_input := "complete task 5",
    status := some "completed", task_id := some 5,
    field := some "status", value := some "pending" }

/-- Witness for C10: concrete instantiation at "complete task 5". -/
theorem claimC10_witness :
    (parse pyDedup anchorMon "complete task 5").toOption.map
      (fun k => (k.field, k.value, k.task_id))
      = some (some "status", some "pending", some 5) := by
  obtain ⟨hf, hv, ht⟩ :=
    claimC10 pyDedup anchorMon "complete task 5" cmdC10 "5".data rfl rfl rfl rfl rfl rfl rfl rfl
  rw [show parse pyDedup anchorMon "complete task 5" = .ok cmdC10 from rfl]
  show some (cmdC10.field, cmdC10.value, cmdC10.task_id) = _
  rw [hf, hv, ht]
  rfl

/-- C6 counterexample: "change 3 to done priority" is a two-group update
match whose captured value "done" contains "done", yet the normalised value
is "medium", not "completed": the input contains the field keyword
"priority", so value normalisation follows the priority table. -/
theorem claimC6_counterexample :
    classify (lowerStr (pyStrip "change 3 to done priority".data))
        = some ("update_task", ["3".data, "done".data]) ∧
      (parse pyDedup anchorMon "change 3 to done priority").toOption.map
        (fun k => (k.field, k.value)) = some (some "priority", some "medium") ∧
      subIn "done".data (lowerStr "done".data) = true := ⟨rfl, rfl, rfl⟩

/-- C6 amended: `parse("mark task 5 as completed")` gives `update_task`,
task id 5, field "status", value "completed"; and in general a two-group
update match whose captured value contains "complete", "done" or "finish"
normalises to value "completed" provided the input contains none of the
field keywords (priority/important/title/name/description/desc), i.e. the
updated field resolves to status. -/
theorem claimC6 (ord : SetOrder) (today : PyDate) (s : String) (cmd : Command)
    (ds vs : List Char)
    (hc : classify (lowerStr (pyStrip s.data)) = some ("update_task", [ds, vs]))
    (h1 : subIn "priority".data (lowerStr (pyStrip s.data)) = false)
    (h2 : subIn "important".data (lowerStr (pyStrip s.data)) = false)
    (h3 : subIn "title".data (lowerStr (pyStrip s.data)) = false)
    (h4 : subIn "name".data (lowerStr (pyStrip s.data)) = false)
    (h5 : subIn "description".data (lowerStr (pyStrip s.data)) = false)
    (h6 : subIn "desc".data (lowerStr (pyStrip s.data)) = false)
    (hcv : (subIn "complete".data (lowerStr vs) || subIn "done".data (lowerStr vs) ||
            subIn "finish".data (lowerStr vs)) = true)
    (hp : parse ord today s = .ok cmd) :
    cmd.command_type = "update_task" ∧ cmd.task_id = some (natOfDigits ds) ∧
      cmd.field = some "status" ∧ cmd.value = some "completed" := by
  rw [parse_classified ord today s _ hc] at hp
  obtain ⟨due, hdue, hb⟩ := extractCommandDetails_ok _ _ _ _ _ _ hp
  rw [hb]
  simp +decide [buildDetails, extractUpdateDetails, h1, h2, h3, h4, h5, h6, hcv]

/-- The Command produced for the C6 witness input "mark task 5 as completed". -/
def cmdC6 : Command :=
  { command_type := "update_task", confidence := 0.9,
    raw_input := "mark task 5 as completed",
    status := some "completed", task_id := some 5,
    field := some "status", value := some "completed" }

/-- Witness for C6: the amended theorem instantiated at the claim's own
example "mark task 5 as completed". -/
theorem claimC6_witness :
    (parse pyDedup anchorMon "mark task 5 as completed").toOption.map
      (fun k => (k.command_type, k.task_id, k.field, k.value))
      = some ("update_task", some 5, some "status", some "completed") := by
  obtain ⟨hty, ht, hf, hv⟩ :=
    claimC6 pyDedup anchorMon "mark task 5 as completed" cmdC6 "5".data "completed".data
      rfl rfl rfl rfl rfl rfl rfl rfl rfl
  rw [show parse pyDedup anchorMon "mark task 5 as completed" = .ok cmdC6 from rfl]
  show some (cmdC6.command_type, cmdC6.task_id, cmdC6.field, cmdC6.value) = _
  rw [hty, ht, hf, hv]
  rfl

/-- A Command with its `tags` key removed (for comparing everything else). -/
def eraseTags (c : Command) : Command := { c with tags := none }

/-- The tag collection of a parse result, as a set. -/
def tagSet : Except PyErr Command → Finset String
  | .ok c => (c.tags.getD []).toFinset
  | .error _ => ∅

theorem buildDetails_eraseTags (o1 o2 : SetOrder) (ct : String) (u : List Char)
    (caps : List (List Char)) (pr st : Option String) (due : Option (List Char)) :
    eraseTags (buildDetails o1 ct u caps pr st due)
      = eraseTags (buildDetails o2 ct u caps pr st due) := by
  unfold buildDetails
  dsimp only
  split_ifs <;> rfl

theorem buildDetails_tags (ord : SetOrder) (ct : String) (u : List Char)
    (caps : List (List Char)) (pr st : Option String) (due : Option (List Char)) :
    (buildDetails ord ct u caps pr st due).tags
      = if ct = "add_task" then
          some ((extractTagsFromText ord u (caps.headD [])).map String.mk)
        else none := by
  unfold buildDetails
  dsimp only
  split_ifs <;> simp_all

/-- C8: `parse` is deterministic.  First conjunct: with the process's set
iteration order fixed (as it is within one CPython process), two parses of
the same string at the same anchor are identical Commands.  Second
conjunct: the set order affects nothing but the ordering of the tag list —
for any two admissible orders, everything except the `tags` key coincides,
and the tag collections are equal as sets. -/
theorem claimC8 :
    (∀ (ord : SetOrder) (today : PyDate) (s : String),
        parse ord today s = parse ord today s) ∧
    (∀ (o1 o2 : SetOrder) (today : PyDate) (s : String),
        IsSetOrder o1 → IsSetOrder o2 →
        (parse o1 today s).map eraseTags = (parse o2 today s).map eraseTags ∧
          tagSet (parse o1 today s) = tagSet (parse o2 today s)) := by
  refine ⟨fun _ _ _ => rfl, ?_⟩
  intro o1 o2 today s h1 h2
  cases hc : classify (lowerStr (pyStrip s.data)) with
  | none =>
    rw [parse_unclassified o1 today s hc, parse_unclassified o2 today s hc]
    exact ⟨rfl, rfl⟩
  | some r =>
    rw [parse_classified o1 today s r hc, parse_classified o2 today s r hc]
    unfold extractCommandDetails
    cases hd : parseDueDate (pyStrip s.data) today with
    | error e => exact ⟨rfl, rfl⟩
    | ok due =>
      dsimp only
      constructor
      · show Except.ok (eraseTags _) = Except.ok (eraseTags _)
        exact congrArg _ (buildDetails_eraseTags o1 o2 r.1 _ r.2 _ _ due)
      · show ((buildDetails o1 r.1 _ r.2 _ _ due).tags.getD []).toFinset
            = ((buildDetails o2 r.1 _ r.2 _ _ due).tags.getD []).toFinset
        rw [buildDetails_tags, buildDetails_tags]
        split_ifs with hct
        · simp only [Option.getD_some]
          apply List.toFinset_eq_of_perm
          exact ((h1 _).trans (h2 _).symm).map String.mk
        · rfl

/-- Witness for C8: both conjuncts instantiated with the concrete admissible
order `pyDedup` on a tag-producing input. -/
theorem claimC8_witness :
    (parse pyDedup anchorMon "add task \"Buy Milk\"")
        = parse pyDedup anchorMon "add task \"Buy Milk\"" ∧
      (parse pyDedup anchorMon "add task \"Buy Milk\"").map eraseTags
          = (parse pyDedup anchorMon "add task \"Buy Milk\"").map eraseTags ∧
        tagSet (parse pyDedup anchorMon "add task \"Buy Milk\"")
          = tagSet (parse pyDedup anchorMon "add task \"Buy Milk\"") := by
  refine ⟨claimC8.1 pyDedup anchorMon _, ?_⟩
  exact claimC8.2 pyDedup pyDedup anchorMon "add task \"Buy Milk\""
    (fun l => List.Perm.refl _) (fun l => List.Perm.refl _)

/-- No due-date rule ranked before the "this <weekday>" rule fires on `t`
(rules 1–17 of the `_parse_due_date` chain). -/
def NoEarlierDue (t : List Char) : Prop :=
  bSearch ["today"] t = false ∧ bSearch ["tomorrow"] t = false ∧
  bSearch ["yesterday"] t = false ∧ bSearch ["this", "morning"] t = false ∧
  bSearch ["this", "afternoon"] t = false ∧ bSearch ["this", "evening"] t = false ∧
  bSearch ["tonight"] t = false ∧ bSearch ["this", "week"] t = false ∧
  bSearch ["next", "week"] t = false ∧ bSearch ["last", "week"] t = false ∧
  bSearch ["this", "month"] t = false ∧ bSearch ["next", "month"] t = false ∧
  bSearch ["last", "month"] t = false ∧ bSearch ["end", "of", "month"] t = false ∧
  bSearch ["end", "of", "week"] t = false ∧ bSearch ["end", "of", "year"] t = false ∧
  searchNextWd t = none

theorem parseDueDate_thisWd (text : List Char) (today : PyDate) (w : List Char)
    (hne : NoEarlierDue (lowerStr text))
    (hw : searchThisWd (lowerStr text) = some w) :
    parseDueDate text today = .ok (getThisWeekday today w) := by
  obtain ⟨e1, e2, e3, e4, e5, e6, e7, e8, e9, e10, e11, e12, e13, e14, e15, e16, e17⟩ := hne
  unfold parseDueDate
  simp only [e1, e2, e3, e4, e5, e6, e7, e8, e9, e10, e11, e12, e13, e14, e15, e16, e17, hw,
    Bool.false_eq_true, if_false]

/-- C7 counterexample: "hello this friday" contains "this friday" and no
earlier-ranked due-date phrase, and with anchor Monday 2025-06-02 this
week's Friday (2025-06-06) is not in the past — yet the returned Command
has no due date at all, because the input matches no pattern rule and the
inference path never runs the entity extractors. -/
theorem claimC7_counterexample :
    (parse pyDedup anchorMon "hello this friday").toOption.map
        (fun k => (k.command_type, k.due_date)) = some ("unknown", none) ∧
      getThisWeekday anchorMon "friday".data = some "2025-06-06".data := ⟨rfl, rfl⟩

/-- C7 amended: restricted to inputs matched by some pattern rule (so the
entity extractors run): if the input contains "this <weekday>" and no
earlier-ranked due-date phrase, then the Command has no `due_date` when the
weekday's occurrence in the current week lies strictly before the anchor,
and otherwise `due_date` is that occurrence's ISO date. -/
theorem claimC7 (ord : SetOrder) (today : PyDate) (s : String) (cmd : Command)
    (r : String × List (List Char)) (w : List Char)
    (hc : classify (lowerStr (pyStrip s.data)) = some r)
    (hne : NoEarlierDue (lowerStr (pyStrip s.data)))
    (hw : searchThisWd (lowerStr (pyStrip s.data)) = some w)
    (hp : parse ord today s = .ok cmd) :
    cmd.due_date =
      if (dayMap w : Int) - (today.weekday : Int) < 0 then none
      else some (String.mk
        (fmtDate (addDays today ((dayMap w : Int) - (today.weekday : Int)).toNat))) := by
  obtain ⟨due, hdue, hcd⟩ := parse_ok_due ord today s r cmd hc hp
  rw [parseDueDate_thisWd _ today w hne hw] at hdue
  injection hdue with hdue
  rw [hcd, ← hdue]
  unfold getThisWeekday
  dsimp only
  split_ifs <;> rfl

/-- The Command produced for the C7 witness input "my tasks this friday". -/
def cmdC7 : Command :=
  { command_type := "list_tasks", confidence := 0.9,
    raw_input := "my tasks this friday", due_date := some "2025-06-06" }

/-- Witness for C7: at anchor Monday 2025-06-02, "my tasks this friday"
(matched by the `my\s+tasks` pattern) gets due date 2025-06-06. -/
theorem claimC7_witness :
    (parse pyDedup anchorMon "my tasks this friday").toOption.bind Command.due_date
      = some "2025-06-06" := by
  have h := claimC7 pyDedup anchorMon "my tasks this friday" cmdC7 ("list_tasks", [])
    "friday".data rfl
    ⟨rfl, rfl, rfl, rfl, rfl, rfl, rfl, rfl, rfl, rfl, rfl, rfl, rfl, rfl, rfl, rfl, rfl⟩
    rfl rfl
  rw [show parse pyDedup anchorMon "my tasks this friday" = .ok cmdC7 from rfl]
  show cmdC7.due_date = some "2025-06-06"
  rw [h]
  rfl

/-! ## Calendar validity lemmas (for claim C4) -/

theorem one_le_daysInMonth (y m : Nat) : 1 ≤ daysInMonth y m := by
  unfold daysInMonth
  split_ifs <;> omega

theorem daysInMonth_le_31 (y m : Nat) : daysInMonth y m ≤ 31 := by
  unfold daysInMonth
  split_ifs <;> omega

theorem daysInMonth_12 (y : Nat) : daysInMonth y 12 = 31 := by
  simp [daysInMonth]

theorem validYMD_iff (y m d : Nat) :
    ValidYMD y m d = true ↔ 1 ≤ m ∧ m ≤ 12 ∧ 1 ≤ d ∧ d ≤ daysInMonth y m := by
  simp [ValidYMD, Bool.and_eq_true, and_assoc]

theorem valid_nextDay (d : PyDate) (h : ValidDate d = true) :
    ValidDate (nextDay d) = true := by
  rw [ValidDate, validYMD_iff] at h
  obtain ⟨hm1, hm2, hd1, hd2⟩ := h
  unfold nextDay
  dsimp only
  split_ifs with h1 h2
  · rw [ValidDate, validYMD_iff]
    dsimp only
    exact ⟨hm1, hm2, by omega, by omega⟩
  · rw [ValidDate, validYMD_iff]
    dsimp only
    exact ⟨by omega, by omega, le_refl 1, one_le_daysInMonth _ _⟩
  · rw [ValidDate, validYMD_iff]
    dsimp only
    exact ⟨le_refl 1, by omega, le_refl 1, one_le_daysInMonth _ _⟩

theorem valid_prevDay (d : PyDate) (h : ValidDate d = true) :
    ValidDate (prevDay d) = true := by
  rw [ValidDate, validYMD_iff] at h
  obtain ⟨hm1, hm2, hd1, hd2⟩ := h
  unfold prevDay
  dsimp only
  split_ifs with h1 h2
  · rw [ValidDate, validYMD_iff]
    dsimp only
    exact ⟨hm1, hm2, by omega, by omega⟩
  · rw [ValidDate, validYMD_iff]
    dsimp only
    exact ⟨by omega, by omega, one_le_daysInMonth _ _, le_refl _⟩
  · rw [ValidDate, validYMD_iff]
    dsimp only
    refine ⟨by omega, by omega, by omega, ?_⟩
    rw [daysInMonth_12]

theorem valid_addDays (d : PyDate) (n : Nat) (h : ValidDate d = true) :
    ValidDate (addDays d n) = true := by
  induction n with
  | zero => exact h
  | succ n ih => exact valid_nextDay _ ih

theorem valid_subDays (d : PyDate) (n : Nat) (h : ValidDate d = true) :
    ValidDate (subDays d n) = true := by
  induction n with
  | zero => exact h
  | succ n ih => exact valid_prevDay _ ih

theorem valid_withDay1 (d : PyDate) (h : ValidDate d = true) :
    ValidDate (withDay1 d) = true := by
  rw [ValidDate, validYMD_iff] at h
  rw [ValidDate, validYMD_iff]
  dsimp only [withDay1]
  exact ⟨h.1, h.2.1, le_refl 1, one_le_daysInMonth _ _⟩

theorem valid_endOfYear (d : PyDate) : ValidDate (endOfYear d) = true := by
  rw [ValidDate, validYMD_iff]
  dsimp only [endOfYear]
  rw [daysInMonth_12]
  exact ⟨by omega, le_refl _, by omega, le_refl _⟩

/-- Inversion helper: an `ok (some (fmtDate X))` result with `X` valid
witnesses the conclusion of `parseDueDate_valid`. -/
theorem ok_some_fmt (X : PyDate) (dd : List Char) (hval : ValidDate X = true)
    (h : (Except.ok (some (fmtDate X)) : Except PyErr (Option (List Char)))
          = .ok (some dd)) :
    ∃ pd, ValidDate pd = true ∧ dd = fmtDate pd := by
  refine ⟨X, hval, ?_⟩
  injection h with h1
  injection h1 with h2
  exact h2.symm

/-- Every date produced by a rule of `_parse_due_date` other than the
numeric-date and month-name rules is the `strftime` of a valid calendar
date (assuming the anchor is valid). -/
theorem parseDueDate_valid (u : List Char) (today : PyDate) (dd : List Char)
    (hv : ValidDate today = true)
    (hnum : searchNumericDate (lowerStr u) = none)
    (hmon : searchMonthName (lowerStr u) = none)
    (hok : parseDueDate u today = .ok (some dd)) :
    ∃ pd, ValidDate pd = true ∧ dd = fmtDate pd := by
  unfold parseDueDate at hok
  dsimp only at hok
  rw [hnum, hmon] at hok
  cases hb1 : bSearch ["today"] (lowerStr u) with
  | true =>
    simp only [hb1, if_true] at hok
    exact ok_some_fmt _ _ hv hok
  | false =>
  simp only [hb1, Bool.false_eq_true, if_false] at hok
  cases hb2 : bSearch ["tomorrow"] (lowerStr u) with
  | true =>
    simp only [hb2, if_true] at hok
    exact ok_some_fmt _ _ (valid_addDays _ _ hv) hok
  | false =>
  simp only [hb2, Bool.false_eq_true, if_false] at hok
  cases hb3 : bSearch ["yesterday"] (lowerStr u) with
  | true =>
    simp only [hb3, if_true] at hok
    exact ok_some_fmt _ _ (valid_subDays _ _ hv) hok
  | false =>
  simp only [hb3, Bool.false_eq_true, if_false] at hok
  cases hb4 : bSearch ["this", "morning"] (lowerStr u) with
  | true =>
    simp only [hb4, if_true] at hok
    exact ok_some_fmt _ _ hv hok
  | false =>
  simp only [hb4, Bool.false_eq_true, if_false] at hok
  cases hb5 : bSearch ["this", "afternoon"] (lowerStr u) with
  | true =>
    simp only [hb5, if_true] at hok
    exact ok_some_fmt _ _ hv hok
  | false =>
  simp only [hb5, Bool.false_eq_true, if_false] at hok
  cases hb6 : bSearch ["this", "evening"] (lowerStr u) with
  | true =>
    simp only [hb6, if_true] at hok
    exact ok_some_fmt _ _ hv hok
  | false =>
  simp only [hb6, Bool.false_eq_true, if_false] at hok
  cases hb7 : bSearch ["tonight"] (lowerStr u) with
  | true =>
    simp only [hb7, if_true] at hok
    exact ok_some_fmt _ _ hv hok
  | false =>
  simp only [hb7, Bool.false_eq_true, if_false] at hok
  cases hb8 : bSearch ["this", "week"] (lowerStr u) with
  | true =>
    simp only [hb8, if_true] at hok
    exact ok_some_fmt _ _ (valid_addDays _ _ hv) hok
  | false =>
  simp only [hb8, Bool.false_eq_true, if_false] at hok
  cases hb9 : bSearch ["next", "week"] (lowerStr u) with
  | true =>
    simp only [hb9, if_true] at hok
    exact ok_some_fmt _ _ (valid_addDays _ _ hv) hok
  | false =>
  simp only [hb9, Bool.false_eq_true, if_false] at hok
  cases hb10 : bSearch ["last", "week"] (lowerStr u) with
  | true =>
    simp only [hb10, if_true] at hok
    exact ok_some_fmt _ _ (valid_subDays _ _ hv) hok
  | false =>
  simp only [hb10, Bool.false_eq_true, if_false] at hok
  cases hb11 : bSearch ["this", "month"] (lowerStr u) with
  | true =>
    simp only [hb11, if_true] at hok
    exact ok_some_fmt _ _ (valid_subDays _ _ (valid_withDay1 _ (valid_addDays _ _ (valid_withDay1 _ hv)))) hok
  | false =>
  simp only [hb11, Bool.false_eq_true, if_false] at hok
  cases hb12 : bSearch ["next", "month"] (lowerStr u) with
  | true =>
    simp only [hb12, if_true] at hok
    exact ok_some_fmt _ _ (valid_withDay1 _ (valid_addDays _ _ (valid_withDay1 _ hv))) hok
  | false =>
  simp only [hb12, Bool.false_eq_true, if_false] at hok
  cases hb13 : bSearch ["last", "month"] (lowerStr u) with
  | true =>
    simp only [hb13, if_true] at hok
    exact ok_some_fmt _ _ (valid_withDay1 _ (valid_subDays _ _ (valid_withDay1 _ hv))) hok
  | false =>
  simp only [hb13, Bool.false_eq_true, if_false] at hok
  cases hb14 : bSearch ["end", "of", "month"] (lowerStr u) with
  | true =>
    simp only [hb14, if_true] at hok
    exact ok_some_fmt _ _ (valid_subDays _ _ (valid_withDay1 _ (valid_addDays _ _ (valid_withDay1 _ hv)))) hok
  | false =>
  simp only [hb14, Bool.false_eq_true, if_false] at hok
  cases hb15 : bSearch ["end", "of", "week"] (lowerStr u) with
  | true =>
    simp only [hb15, if_true] at hok
    exact ok_some_fmt _ _ (valid_addDays _ _ hv) hok
  | false =>
  simp only [hb15, Bool.false_eq_true, if_false] at hok
  cases hb16 : bSearch ["end", "of", "year"] (lowerStr u) with
  | true =>
    simp only [hb16, if_true] at hok
    exact ok_some_fmt _ _ (valid_endOfYear _) hok
  | false =>
  simp only [hb16, Bool.false_eq_true, if_false] at hok
  cases hnw : searchNextWd (lowerStr u) with
  | some name =>
    rw [hnw] at hok
    unfold getNextWeekday at hok
    dsimp only at hok
    simp only [Except.ok.injEq, Option.some.injEq] at hok
    exact ⟨_, valid_addDays _ _ hv, hok.symm⟩
  | none =>
  rw [hnw] at hok
  cases htw : searchThisWd (lowerStr u) with
  | some name =>
    rw [htw] at hok
    simp only [Except.ok.injEq] at hok
    unfold getThisWeekday at hok
    dsimp only at hok
    by_cases hcmp : (dayMap name : Int) - (today.weekday : Int) < 0
    · rw [if_pos hcmp] at hok
      exact absurd hok (by simp)
    · rw [if_neg hcmp] at hok
      simp only [Option.some.injEq] at hok
      exact ⟨_, valid_addDays _ _ hv, hok.symm⟩
  | none =>
  rw [htw] at hok
  cases hdy : searchInUnit "day" (lowerStr u) with
  | some ds =>
    rw [hdy] at hok
    simp only [Except.ok.injEq, Option.some.injEq] at hok
    exact ⟨_, valid_addDays _ _ hv, hok.symm⟩
  | none =>
  rw [hdy] at hok
  cases hwk : searchInUnit "week" (lowerStr u) with
  | some ws =>
    rw [hwk] at hok
    simp only [Except.ok.injEq, Option.some.injEq] at hok
    exact ⟨_, valid_addDays _ _ hv, hok.symm⟩
  | none =>
  rw [hwk] at hok
  cases hmo : searchInUnit "month" (lowerStr u) with
  | some ms =>
    rw [hmo] at hok
    dsimp only at hok
    cases hre : replaceYM today (today.year + (today.month + natOfDigits ms - 1) / 12)
        (((today.month + natOfDigits ms - 1) % 12) + 1) with
    | error e => rw [hre] at hok; exact absurd hok (by simp [Except.map])
    | ok pd =>
      rw [hre] at hok
      simp only [Except.map, Except.ok.injEq, Option.some.injEq] at hok
      refine ⟨pd, ?_, hok.symm⟩
      unfold replaceYM at hre
      split_ifs at hre with hcond
      · simp only [Except.ok.injEq] at hre
        rw [ValidDate, validYMD_iff] at hv ⊢
        rw [← hre]
        exact ⟨hcond.1, hcond.2.1, hv.2.2.1, hcond.2.2⟩
  | none =>
  rw [hmo] at hok
  exact absurd hok (by simp)

theorem natDigits_lt10 (n : Nat) (h : n < 10) : natDigits n = [digitChar n] := by
  simp [natDigits, natDigitsAux, h]

theorem natDigits_len2 (n : Nat) (h1 : 10 ≤ n) (h2 : n ≤ 99) :
    (natDigits n).length = 2 := by
  obtain ⟨m, rfl⟩ : ∃ m, n = m + 1 := ⟨n - 1, by omega⟩
  have hn10 : ¬ (m + 1 < 10) := by omega
  have hdiv : (m + 1) / 10 < 10 := by omega
  simp [natDigits, natDigitsAux, hn10, hdiv]

theorem pad2_len (n : Nat) (h : n ≤ 99) : (pad2 n).length = 2 := by
  unfold pad2
  split_ifs with h10
  · simp [natDigits_lt10 n h10]
  · exact natDigits_len2 n (by omega) h

/-- C4 counterexample: "my tasks 13/45/2020" matches the `my\s+tasks` rule
and the numeric-date rule copies the captured digits with no calendar
validation: the Command carries due date "2020-13-45", which is the ISO
rendering of no valid calendar date (there is no month 13). -/
theorem claimC4_counterexample :
    (parse pyDedup anchorMon "my tasks 13/45/2020").toOption.bind Command.due_date
        = some "2020-13-45" ∧ ¬ IsValidISO "2020-13-45" := by
  refine ⟨rfl, ?_⟩
  rintro ⟨y, m, d, hv, heq⟩
  rw [validYMD_iff] at hv
  obtain ⟨hm1, hm2, hd1, hd2⟩ := hv
  have hm99 : m ≤ 99 := by omega
  have hd99 : d ≤ 99 := by have := daysInMonth_le_31 y m; omega
  have lm := pad2_len m hm99
  have ld := pad2_len d hd99
  rw [isoChars] at heq
  have htar : ("2020-13-45".data : List Char)
      = "2020".data ++ '-' :: ("13".data ++ '-' :: "45".data) := rfl
  rw [htar] at heq
  have hlen := congrArg List.length heq
  simp [List.length_append, lm, ld] at hlen
  have l4 : (pad4 y).length = 4 := by omega
  obtain ⟨h14, hrest⟩ := List.append_inj heq (by rw [l4]; rfl)
  injection hrest with hdash hrest2
  obtain ⟨h13, hrest3⟩ := List.append_inj hrest2 (by rw [lm]; rfl)
  interval_cases m <;> exact absurd h13 (by decide)

/-- C4 amended: whenever the returned Command has a `due_date` and the input
contains neither a numeric date nor a "<month name> <day>" phrase (the two
rules that copy digits without validation — e.g. "13/45/2020" yields the
invalid string "2020-13-45"), the due date is the ISO rendering of a valid
calendar date, for every valid anchor. -/
theorem claimC4 (ord : SetOrder) (today : PyDate) (s : String) (cmd : Command)
    (dstr : String)
    (hv : ValidDate today = true)
    (hnum : searchNumericDate (lowerStr (pyStrip s.data)) = none)
    (hmon : searchMonthName (lowerStr (pyStrip s.data)) = none)
    (hp : parse ord today s = .ok cmd)
    (hdd : cmd.due_date = some dstr) :
    IsValidISO dstr := by
  cases hc : classify (lowerStr (pyStrip s.data)) with
  | none =>
    rw [parse_unclassified ord today s hc] at hp
    injection hp with hp
    rw [← hp, (inferCommand_fields _).2] at hdd
    exact absurd hdd (by simp)
  | some r =>
    obtain ⟨due, hdue, hcd⟩ := parse_ok_due ord today s r cmd hc hp
    rw [hdd] at hcd
    cases due with
    | none => exact absurd hcd (by simp)
    | some dd =>
      have hds : dstr = String.mk dd := by simpa using hcd
      obtain ⟨pd, hpd, hfmt⟩ := parseDueDate_valid (pyStrip s.data) today dd hv hnum hmon hdue
      refine ⟨pd.year, pd.month, pd.day, hpd, ?_⟩
      rw [hds]
      exact hfmt

/-- The Command produced for the C4 witness input "my tasks tomorrow". -/
def cmdC4 : Command :=
  { command_type := "list_tasks", confidence := 0.9, raw_input := "my tasks tomorrow",
    due_date := some "2025-06-03" }

/-- Witness for C4: the amended theorem instantiated at "my tasks tomorrow"
with anchor Monday 2025-06-02. -/
theorem claimC4_witness : IsValidISO "2025-06-03" :=
  claimC4 pyDedup anchorMon "my tasks tomorrow" cmdC4 "2025-06-03" rfl rfl rfl rfl rfl

/-! ## Quoted-title characterisation (claim C3) -/

theorem toLower_eq_quote {c q : Char} (hq : isQuote q = true) (h : c.toLower = q) :
    c = q := by
  have hq2 : q = '"' ∨ q = '\'' := by simpa [isQuote] using hq
  unfold Char.toLower at h
  dsimp only at h
  split_ifs at h with hn
  · exfalso
    obtain ⟨h1, h2⟩ := hn
    generalize hk : c.toNat = k at h h1 h2
    interval_cases k <;> rcases hq2 with rfl | rfl <;> exact absurd h (by decide)
  · exact h

theorem toLower_quote_self {q : Char} (hq : isQuote q = true) : q.toLower = q := by
  have hq2 : q = '"' ∨ q = '\'' := by simpa [isQuote] using hq
  rcases hq2 with rfl | rfl <;> decide

theorem eatCI_append (w : List Char) : ∀ s r : List Char, eatCI w s = some r →
    ∃ pre, s = pre ++ r := by
  induction w with
  | nil =>
    intro s r h
    injection h with h
    exact ⟨[], by rw [h]; rfl⟩
  | cons p ps ih =>
    intro s r h
    cases s with
    | nil => exact absurd h (by simp [eatCI])
    | cons c cs =>
      unfold eatCI at h
      split_ifs at h with hc
      · obtain ⟨pre, hpre⟩ := ih cs r h
        exact ⟨c :: pre, by rw [hpre]; rfl⟩

theorem ws1_append (s r : List Char) (h : ws1 s = some r) : ∃ pre, s = pre ++ r := by
  cases s with
  | nil => exact absurd h (by simp [ws1])
  | cons c cs =>
    simp only [ws1] at h
    split_ifs at h with hc
    · injection h with h
      refine ⟨c :: cs.takeWhile isPySpace, ?_⟩
      rw [← h]
      have := List.takeWhile_append_dropWhile isPySpace cs
      simp only [List.cons_append, this]

/-- The input decomposes around a non-empty quote-free captured group. -/
def HasQuoted (s : List Char) (caps : List (List Char)) : Prop :=
  ∃ g pre post q1 q2, caps = [g] ∧ s = pre ++ q1 :: (g ++ q2 :: post) ∧
    isQuote q1 = true ∧ isQuote q2 = true ∧ g ≠ [] ∧ ∀ ch ∈ g, isQuote ch = false

theorem hasQuoted_prepend (p s : List Char) (caps : List (List Char))
    (h : HasQuoted s caps) : HasQuoted (p ++ s) caps := by
  obtain ⟨g, pre, post, q1, q2, hc, hs, h1, h2, h3, h4⟩ := h
  exact ⟨g, p ++ pre, post, q1, q2, hc, by rw [hs, List.append_assoc], h1, h2, h3, h4⟩

theorem quotedCap_hasQuoted : ∀ s caps,
    ((quotedCapAt s).map fun g => [g.1]) = some caps → HasQuoted s caps := by
  intro s caps h
  cases s with
  | nil => exact absurd h (by simp [quotedCapAt])
  | cons c rest =>
    simp only [quotedCapAt] at h
    by_cases hq : isQuote c = true
    · rw [if_pos hq] at h
      set A := rest.takeWhile (fun d => ¬ isQuote d) with hA
      by_cases hg : A.isEmpty = true
      · rw [if_pos hg] at h
        exact absurd h (by simp)
      · rw [if_neg hg] at h
        obtain ⟨t, ht⟩ := List.takeWhile_prefix (p := fun d => ¬ isQuote d) (l := rest)
        rw [← hA] at ht
        rw [← ht, List.drop_left] at h
        cases t with
        | nil => exact absurd h (by simp)
        | cons d tail =>
          dsimp only at h
          by_cases hd : isQuote d = true
          · rw [if_pos hd] at h
            have hcaps : caps = [A] := by
              have := h.symm
              simpa using this
            refine ⟨A, [], tail, c, d, hcaps, ?_, hq, hd, ?_, ?_⟩
            · rw [List.nil_append, ← ht]
            · simpa using hg
            · intro ch hch
              have := List.mem_takeWhile_imp (p := fun d => ¬ isQuote d) (hA ▸ hch)
              simpa using this
          · rw [if_neg hd] at h
            exact absurd h (by simp)
    · rw [if_neg hq] at h
      exact absurd h (by simp)

/-- Matchers whose success always exhibits a quoted capture. -/
def QuotedReach (k : List Char → Option (List (List Char))) : Prop :=
  ∀ s caps, k s = some caps → HasQuoted s caps

theorem reach_wordWs (w : String) (k : List Char → Option (List (List Char)))
    (h : QuotedReach k) : QuotedReach (wordWs w k) := by
  intro s caps hk
  unfold wordWs at hk
  rw [show (do k (← ws1 (← eatCI w.data s)) : Option (List (List Char)))
        = (eatCI w.data s).bind (fun r1 => (ws1 r1).bind k) from rfl] at hk
  simp only [Option.bind_eq_some] at hk
  obtain ⟨r1, he, r2, hw, hkk⟩ := hk
  obtain ⟨p1, hp1⟩ := eatCI_append w.data s r1 he
  obtain ⟨p2, hp2⟩ := ws1_append r1 r2 hw
  rw [hp1, hp2]
  exact hasQuoted_prepend _ _ _ (hasQuoted_prepend _ _ _ (h r2 caps hkk))

theorem reach_optWordWs (w : String) (k : List Char → Option (List (List Char)))
    (h : QuotedReach k) : QuotedReach (optWordWs w k) := by
  intro s caps hk
  unfold optWordWs at hk
  cases ho : (do k (← ws1 (← eatCI w.data s)) : Option (List (List Char))) with
  | some c' =>
    rw [ho, Option.some_orElse] at hk
    injection hk with hk
    rw [hk] at ho
    exact reach_wordWs w k h s caps ho
  | none =>
    rw [ho, Option.none_orElse] at hk
    exact h s caps hk

theorem scan_decomp (f : List Char → Option α) : ∀ (s : List Char) (r : α),
    scan f s = some r → ∃ pre suf, s = pre ++ suf ∧ f suf = some r := by
  intro s
  induction s with
  | nil => exact fun r h => ⟨[], [], rfl, h⟩
  | cons c cs ih =>
    intro r h
    unfold scan at h
    cases hf : f (c :: cs) with
    | some r' =>
      rw [hf, Option.some_orElse] at h
      injection h with h
      exact ⟨[], c :: cs, rfl, by rw [hf, h]⟩
    | none =>
      rw [hf, Option.none_orElse] at h
      obtain ⟨pre, suf, hps, hfs⟩ := ih r h
      exact ⟨c :: pre, suf, by rw [hps]; rfl, hfs⟩

/-- Transfer a quoted decomposition of the lower-cased text back to the
original text: quotes are fixed points of `toLower`, so the original splits
at the same quotes and the captured group is the lowering of the original
quoted substring. -/
theorem lower_decomp (l pre post g : List Char) (q1 q2 : Char)
    (h : lowerStr l = pre ++ q1 :: (g ++ q2 :: post))
    (hq1 : isQuote q1 = true) (hq2 : isQuote q2 = true)
    (hg : g ≠ []) (hgq : ∀ ch ∈ g, isQuote ch = false) :
    ∃ c pre0 post0, l = pre0 ++ q1 :: (c ++ q2 :: post0) ∧ lowerStr c = g ∧
      c ≠ [] ∧ (∀ ch ∈ c, isQuote ch = false) := by
  unfold lowerStr at h
  rw [List.map_eq_append_iff] at h
  obtain ⟨l1, l2, hl, hm1, hm2⟩ := h
  rw [List.map_eq_cons_iff] at hm2
  obtain ⟨a, as, hl2, ha, hmas⟩ := hm2
  rw [List.map_eq_append_iff] at hmas
  obtain ⟨m1, m2, has, hg1, hg2⟩ := hmas
  rw [List.map_eq_cons_iff] at hg2
  obtain ⟨b, bs, hm2e, hb, hbs⟩ := hg2
  have ha' : a = q1 := toLower_eq_quote hq1 ha
  have hb' : b = q2 := toLower_eq_quote hq2 hb
  refine ⟨m1, l1, bs, ?_, hg1, ?_, ?_⟩
  · rw [hl, hl2, has, hm2e, ha', hb']
  · intro hme
    apply hg
    rw [← hg1, hme]
    rfl
  · intro ch hch
    by_contra hqc
    have hqt : isQuote ch = true := by
      revert hqc
      cases isQuote ch <;> simp
    have hfix : ch.toLower = ch := toLower_quote_self hqt
    have hmem : ch.toLower ∈ List.map Char.toLower m1 := List.mem_map_of_mem _ hch
    rw [hg1, hfix] at hmem
    have := hgq ch hmem
    rw [this] at hqt
    exact absurd hqt (by simp)

theorem buildDetails_title_add (ord : SetOrder) (u : List Char)
    (caps : List (List Char)) (pr st : Option String) (due : Option (List Char)) :
    (buildDetails ord "add_task" u caps pr st due).title
      = some (String.mk (caps.headD [])) := by
  unfold buildDetails
  simp

/-- C3 counterexample: for the input `add task "Buy Milk"` the extracted
title is "buy milk", not the verbatim quoted substring "Buy Milk": the
regex match runs on the lower-cased copy of the input, so the captured
group has its letter case folded. -/
theorem claimC3_counterexample :
    (parse pyDedup anchorMon "add task \"Buy Milk\"").toOption.bind Command.title
        = some "buy milk" ∧ ("buy milk" : String) ≠ "Buy Milk" := ⟨rfl, by decide⟩

/-- C3 amended: whenever the quoted add-task pattern (the first pattern of
the first category, hence the match used when it fires) matches the
lower-cased stripped input, the input decomposes around a non-empty,
quote-free quoted substring `c`, and the Command's title is exactly the
lower-casing of `c` — verbatim except for case folding, with no trimming
beyond the quotes. -/
theorem claimC3 (ord : SetOrder) (today : PyDate) (s : String) (cmd : Command)
    (caps : List (List Char))
    (hm : scan addP1At (lowerStr (pyStrip s.data)) = some caps)
    (hp : parse ord today s = .ok cmd) :
    ∃ c pre post q1 q2,
      pyStrip s.data = pre ++ q1 :: (c ++ q2 :: post) ∧
      isQuote q1 = true ∧ isQuote q2 = true ∧ c ≠ [] ∧
      (∀ ch ∈ c, isQuote ch = false) ∧
      cmd.title = some (String.mk (lowerStr c)) := by
  have hcl : classify (lowerStr (pyStrip s.data)) = some ("add_task", caps) := by
    unfold classify commandPatterns
    rw [List.findSome?_cons, List.findSome?_cons, hm]
    rfl
  obtain ⟨pre0, suf, hsuf, hP1⟩ := scan_decomp addP1At _ caps hm
  have hreach : QuotedReach addP1At :=
    reach_wordWs "add" _ (reach_optWordWs "a" _ (reach_optWordWs "new" _ (reach_wordWs "task" _
      (reach_optWordWs "called" _ quotedCap_hasQuoted))))
  have hHQ : HasQuoted (lowerStr (pyStrip s.data)) caps := by
    rw [hsuf]
    exact hasQuoted_prepend _ _ _ (hreach suf caps hP1)
  obtain ⟨g, pre1, post1, q1, q2, hcaps, hsplit, hq1, hq2, hgne, hgq⟩ := hHQ
  obtain ⟨c, pre2, post2, hdec, hlg, hcne, hcq⟩ :=
    lower_decomp (pyStrip s.data) pre1 post1 g q1 q2 hsplit hq1 hq2 hgne hgq
  rw [parse_classified ord today s _ hcl] at hp
  obtain ⟨due, hdue, hb⟩ := extractCommandDetails_ok _ _ _ _ _ _ hp
  refine ⟨c, pre2, post2, q1, q2, hdec, hq1, hq2, hcne, hcq, ?_⟩
  rw [hb, buildDetails_title_add, hcaps, ← hlg]
  rfl

/-- The Command produced for the C3 witness input. -/
def cmdC3 : Command :=
  { command_type := "add_task", confidence := 0.9,
    raw_input := "add task 'Meeting Notes'",
    title := some "meeting notes", description := some "",
    tags := some ["work", "meeting"] }

/-- Witness for C3: concrete instantiation at `add task 'Meeting Notes'`. -/
theorem claimC3_witness :
    ∃ c pre post q1 q2,
      pyStrip ("add task 'Meeting Notes'" : String).data
          = pre ++ q1 :: (c ++ q2 :: post) ∧
        isQuote q1 = true ∧ isQuote q2 = true ∧ c ≠ [] ∧
        (∀ ch ∈ c, isQuote ch = false) ∧
        (parse pyDedup anchorMon "add task 'Meeting Notes'").toOption.bind Command.title
          = some (String.mk (lowerStr c)) := by
  obtain ⟨c, pre, post, q1, q2, h1, h2, h3, h4, h5, h6⟩ :=
    claimC3 pyDedup anchorMon "add task 'Meeting Notes'" cmdC3
      [("meeting notes" : String).data] rfl rfl
  refine ⟨c, pre, post, q1, q2, h1, h2, h3, h4, h5, ?_⟩
  rw [show parse pyDedup anchorMon "add task 'Meeting Notes'" = .ok cmdC3 from rfl]
  exact h6

end TaskNLP
